import Mathlib

/-!
Verification of the pipeline execution engine (Go repository) against its
natural-language specification.

This file shallowly embeds the parts of the source relevant to the checked
claims:

* the provider registry (`internal/engine` provider file: `RegisterProfile`,
  `mergeProfile`, `ProviderRegistry.Resolve`),
* the streaming tracker (`StreamingTracker.Diff`),
* the HTTP event log (`Handler.appendEvent`, `Handler.streamExistingJob`),
* the in-memory job store (`MemoryStore.GetJob`, `cloneJob`),
* the engine (`BasicEngine.CancelJob`, `BasicEngine.executeJob`,
  `BasicEngine.runStep` and its helpers).

Machine integers are modelled as `Nat` (seq numbers are Go `uint64`; no
arithmetic in the embedded code can overflow them, and `strconv.ParseUint`
range checking is modelled explicitly where it matters).  Go time values are
modelled as a logical clock (`Nat`); random IDs are modelled as a counter
supply.  Go maps are modelled as association lists with first-match lookup
and in-place update; where Go's map aliasing is observable (the registry's
`Extra` map, the store's chunk slices and data maps) the sharing is made
explicit in the model.
-/

namespace PipelineEngine

/-- JSON-like dynamic value, modelling Go's `any` in the open maps
(`extra`, `provider_override`, `data`, `metadata`). -/
inductive JValue where
  | str (s : String)
  | num (n : Int)
  | boolean (b : Bool)
  | null
  deriving DecidableEq, Repr

/-- Go `fmt.Sprint` on the dynamic values we model. -/
def JValue.sprint : JValue → String
  | .str s => s
  | .num n => toString n
  | .boolean b => if b then "true" else "false"
  | .null => "<nil>"

/-- ASCII lower-casing of one character (Go `strings.ToLower`, restricted to
ASCII, which covers every key the merge compares against). -/
def lowerChar (c : Char) : Char :=
  if 65 ≤ c.toNat ∧ c.toNat ≤ 90 then Char.ofNat (c.toNat + 32) else c

/-- Go `strings.ToLower` on the strings the embedded code feeds it. -/
def goLower (s : String) : String := ⟨s.data.map lowerChar⟩

/-- Association-list lookup, modelling Go map indexing (`m[k]`). -/
def alookup {α : Type} (m : List (String × α)) (k : String) : Option α :=
  match m with
  | [] => none
  | (k₀, v₀) :: rest => if k₀ = k then some v₀ else alookup rest k

/-- Association-list update, modelling Go map assignment (`m[k] = v`). -/
def aset {α : Type} (m : List (String × α)) (k : String) (v : α) :
    List (String × α) :=
  match m with
  | [] => [(k, v)]
  | (k₀, v₀) :: rest => if k₀ = k then (k, v) :: rest else (k₀, v₀) :: aset rest k v

/-- Open string-keyed map of dynamic values (`map[string]any`). -/
abbrev JMap := List (String × JValue)

/-- ProviderProfile (types.go).  `extra` is `Option` because a Go map can be
`nil`; a `some` value stands for a map object whose contents may be shared. -/
structure ProviderProfile where
  id : String
  kind : String
  baseURI : String
  apiKey : String
  defaultModel : String
  extra : Option JMap
  deriving DecidableEq, Repr

/-- StepDef (types.go), restricted to the fields the embedded code reads. -/
structure StepDef where
  id : String
  name : String
  kind : String
  mode : String
  dependsOn : List String
  providerProfileID : String
  providerOverride : JMap
  promptSystem : String
  promptUser : String
  hasPrompt : Bool
  outputType : String
  exportFlag : Bool
  deriving DecidableEq, Repr

/-- Errors produced by `ProviderRegistry.Resolve`; the constructors correspond
to the three error returns in the source (the spec tags them
`missing_profile_id`, `profile_not_found`, `kind_not_registered`). -/
inductive ResolveErr where
  | missingProfileId
  | profileNotFound (id : String)
  | kindNotRegistered (kind : String)
  deriving DecidableEq, Repr

/-- A resolved provider: in the source, `factory(merged)` builds a provider
struct of the factory's kind holding the merged profile.  We record exactly
that pair. -/
structure RProvider where
  kind : String
  profile : ProviderProfile
  deriving DecidableEq, Repr

/-- ProviderRegistry state: `profiles` maps profile id to profile, and
`factoryKinds` records the kinds for which a factory is registered (every
in-repo factory is `fun p => ProviderStruct{profile: p}`, captured by
`RProvider`). -/
structure Registry where
  profiles : List (String × ProviderProfile)
  factoryKinds : List String
  deriving DecidableEq, Repr

/-- ProviderRegistry.RegisterProfile: ignore empty ids, default empty kind to
`local_tool`, replace a `nil` extra map by a fresh empty map, store. -/
def registerProfile (r : Registry) (p : ProviderProfile) : Registry :=
  if p.id = "" then r
  else
    let p := if p.kind = "" then { p with kind := "local_tool" } else p
    let p := if p.extra = none then { p with extra := some [] } else p
    { r with profiles := aset r.profiles p.id p }

/-- One override entry applied to the accumulator of `mergeProfile`'s loop:
a key whose lower-case form is `base_uri`, `api_key` or `default_model`
overwrites the struct field (of the local copy); any other key is written
into the extra map — in Go, through the map reference shared with the base
profile. -/
def mergeStep : ProviderProfile × JMap → String × JValue → ProviderProfile × JMap
  | (p, m), (k, v) =>
    if goLower k = "base_uri" then ({ p with baseURI := v.sprint }, m)
    else if goLower k = "api_key" then ({ p with apiKey := v.sprint }, m)
    else if goLower k = "default_model" then ({ p with defaultModel := v.sprint }, m)
    else (p, aset m k v)

/-- mergeProfile (provider registry file).  Returns the merged profile
together with the final contents of the map object referenced by
`base.extra`:  `result := base` copies the struct but shares the `Extra`
map, so unless `base.extra` was `nil` (in which case a fresh map is
allocated), every non-special override key is written into the base
profile's own map object.  The second component is `none` when `base.extra`
is `nil` (nothing shared to mutate), otherwise the mutated contents. -/
def mergeProfile (base : ProviderProfile) (overrides : JMap) :
    ProviderProfile × Option JMap :=
  if overrides.isEmpty then (base, base.extra)
  else
    let fresh := base.extra = none
    let start : JMap := base.extra.getD []
    let (p, m) := overrides.foldl mergeStep (base, start)
    ({ p with extra := some m }, if fresh then base.extra else some m)

/-- ProviderRegistry.Resolve.  Returns the outcome together with the registry
state after the call: computing the merged profile writes through the shared
`Extra` map, so the stored profile's extra contents become the second
component of `mergeProfile`. -/
def resolve (r : Registry) (step : StepDef) :
    Except ResolveErr (RProvider × ProviderProfile) × Registry :=
  if step.providerProfileID = "" then (.error .missingProfileId, r)
  else
    match alookup r.profiles step.providerProfileID with
    | none => (.error (.profileNotFound step.providerProfileID), r)
    | some profile =>
      let (merged, baseExtraAfter) := mergeProfile profile step.providerOverride
      let stored : ProviderProfile := { profile with extra := baseExtraAfter }
      let r' : Registry :=
        { r with profiles := aset r.profiles step.providerProfileID stored }
      if r.factoryKinds.contains merged.kind then
        (.ok (⟨merged.kind, merged⟩, merged), r')
      else
        (.error (.kindNotRegistered merged.kind), r')

theorem alookup_aset_self {α : Type} (m : List (String × α)) (k : String) (v : α) :
    alookup (aset m k v) k = some v := by
  induction m with
  | nil => simp [aset, alookup]
  | cons e rest ih =>
    obtain ⟨k₀, v₀⟩ := e
    by_cases h : k₀ = k
    · simp [aset, alookup, h]
    · simp [aset, alookup, h, ih]

theorem alookup_aset_ne {α : Type} (m : List (String × α)) {k₂ k : String} (v : α)
    (h : k₂ ≠ k) : alookup (aset m k₂ v) k = alookup m k := by
  induction m with
  | nil => simp [aset, alookup, h]
  | cons e rest ih =>
    obtain ⟨k₀, v₀⟩ := e
    by_cases h₀ : k₀ = k₂
    · subst h₀
      simp [aset, alookup, h]
    · simp [aset, h₀, alookup, ih]

/-- The fold of `mergeStep` over entries none of which name `base_uri`
(case-insensitively) leaves `baseURI` unchanged. -/
theorem mergeFold_baseURI (l : JMap) (acc : ProviderProfile × JMap)
    (h : ∀ e ∈ l, goLower e.1 ≠ "base_uri") :
    (l.foldl mergeStep acc).1.baseURI = acc.1.baseURI := by
  induction l generalizing acc with
  | nil => rfl
  | cons e rest ih =>
    obtain ⟨k, v⟩ := e
    have hk : goLower k ≠ "base_uri" := h (k, v) (List.mem_cons_self _ _)
    have hrest : ∀ e ∈ rest, goLower e.1 ≠ "base_uri" :=
      fun e he => h e (List.mem_cons_of_mem _ he)
    obtain ⟨p, m⟩ := acc
    rw [List.foldl_cons, ih _ hrest]
    simp only [mergeStep]
    repeat' split
    all_goals simp_all

theorem mergeFold_apiKey (l : JMap) (acc : ProviderProfile × JMap)
    (h : ∀ e ∈ l, goLower e.1 ≠ "api_key") :
    (l.foldl mergeStep acc).1.apiKey = acc.1.apiKey := by
  induction l generalizing acc with
  | nil => rfl
  | cons e rest ih =>
    obtain ⟨k, v⟩ := e
    have hk : goLower k ≠ "api_key" := h (k, v) (List.mem_cons_self _ _)
    have hrest : ∀ e ∈ rest, goLower e.1 ≠ "api_key" :=
      fun e he => h e (List.mem_cons_of_mem _ he)
    obtain ⟨p, m⟩ := acc
    rw [List.foldl_cons, ih _ hrest]
    simp only [mergeStep]
    repeat' split
    all_goals simp_all

theorem mergeFold_defaultModel (l : JMap) (acc : ProviderProfile × JMap)
    (h : ∀ e ∈ l, goLower e.1 ≠ "default_model") :
    (l.foldl mergeStep acc).1.defaultModel = acc.1.defaultModel := by
  induction l generalizing acc with
  | nil => rfl
  | cons e rest ih =>
    obtain ⟨k, v⟩ := e
    have hk : goLower k ≠ "default_model" := h (k, v) (List.mem_cons_self _ _)
    have hrest : ∀ e ∈ rest, goLower e.1 ≠ "default_model" :=
      fun e he => h e (List.mem_cons_of_mem _ he)
    obtain ⟨p, m⟩ := acc
    rw [List.foldl_cons, ih _ hrest]
    simp only [mergeStep]
    repeat' split
    all_goals simp_all

/-- The fold of `mergeStep` over entries whose lower-cased keys all differ
from `goLower k` does not change the extra map at key `k`. -/
theorem mergeFold_extra_stable (l : JMap) (acc : ProviderProfile × JMap) (k : String)
    (h : ∀ e ∈ l, goLower e.1 ≠ goLower k) :
    alookup (l.foldl mergeStep acc).2 k = alookup acc.2 k := by
  induction l generalizing acc with
  | nil => rfl
  | cons e rest ih =>
    obtain ⟨k₀, v₀⟩ := e
    have hk : goLower k₀ ≠ goLower k := h (k₀, v₀) (List.mem_cons_self _ _)
    have hne : k₀ ≠ k := fun hEq => hk (by rw [hEq])
    have hrest : ∀ e ∈ rest, goLower e.1 ≠ goLower k :=
      fun e he => h e (List.mem_cons_of_mem _ he)
    obtain ⟨p, m⟩ := acc
    rw [List.foldl_cons, ih _ hrest]
    simp only [mergeStep]
    split
    · rfl
    · split
      · rfl
      · split
        · rfl
        · exact alookup_aset_ne m v₀ hne

/-- Per-entry effect of the `mergeProfile` fold, assuming the lower-cased
override keys are pairwise distinct. -/
theorem mergeFold_entry (l : JMap) (acc : ProviderProfile × JMap)
    (hnd : (l.map (fun e => goLower e.1)).Nodup) :
    ∀ k v, (k, v) ∈ l →
      (goLower k = "base_uri" → (l.foldl mergeStep acc).1.baseURI = v.sprint)
      ∧ (goLower k = "api_key" → (l.foldl mergeStep acc).1.apiKey = v.sprint)
      ∧ (goLower k = "default_model" →
          (l.foldl mergeStep acc).1.defaultModel = v.sprint)
      ∧ (goLower k ≠ "base_uri" → goLower k ≠ "api_key" →
          goLower k ≠ "default_model" →
          alookup (l.foldl mergeStep acc).2 k = some v) := by
  induction l generalizing acc with
  | nil => intro k v hmem; cases hmem
  | cons e rest ih =>
    obtain ⟨k₀, v₀⟩ := e
    have hnd' : (rest.map (fun e => goLower e.1)).Nodup := (List.nodup_cons.mp hnd).2
    have hnotin : goLower k₀ ∉ rest.map (fun e => goLower e.1) :=
      (List.nodup_cons.mp hnd).1
    intro k v hmem
    rcases List.mem_cons.mp hmem with hhead | htail
    · injection hhead with hk hv
      subst hk; subst hv
      have hstab : ∀ e ∈ rest, goLower e.1 ≠ goLower k := by
        intro e he hEq
        exact hnotin (by rw [← hEq]; exact List.mem_map_of_mem _ he)
      refine ⟨?_, ?_, ?_, ?_⟩
      · intro hlow
        rw [List.foldl_cons, mergeFold_baseURI _ _ (fun e he => by
          rw [← hlow] at *; exact hstab e he)]
        obtain ⟨p, m⟩ := acc
        simp [mergeStep, hlow]
      · intro hlow
        rw [List.foldl_cons, mergeFold_apiKey _ _ (fun e he => by
          rw [← hlow] at *; exact hstab e he)]
        obtain ⟨p, m⟩ := acc
        have hb : goLower k ≠ "base_uri" := by rw [hlow]; decide
        simp [mergeStep, hlow, hb]
      · intro hlow
        rw [List.foldl_cons, mergeFold_defaultModel _ _ (fun e he => by
          rw [← hlow] at *; exact hstab e he)]
        obtain ⟨p, m⟩ := acc
        have hb : goLower k ≠ "base_uri" := by rw [hlow]; decide
        have ha : goLower k ≠ "api_key" := by rw [hlow]; decide
        simp [mergeStep, hlow, hb, ha]
      · intro h₁ h₂ h₃
        rw [List.foldl_cons, mergeFold_extra_stable _ _ _ hstab]
        obtain ⟨p, m⟩ := acc
        simp [mergeStep, h₁, h₂, h₃, alookup_aset_self]
    · have := ih (mergeStep acc (k₀, v₀)) hnd' k v htail
      rw [List.foldl_cons]
      exact this

/-- C6 counterpart on `mergeProfile` itself: the merged profile's fields and
extra map are characterised entry-wise. -/
theorem mergeProfile_spec (base : ProviderProfile) (overrides : JMap)
    (hnd : (overrides.map (fun e => goLower e.1)).Nodup) :
    ∀ k v, (k, v) ∈ overrides →
      (goLower k = "base_uri" →
        (mergeProfile base overrides).1.baseURI = v.sprint)
      ∧ (goLower k = "api_key" →
        (mergeProfile base overrides).1.apiKey = v.sprint)
      ∧ (goLower k = "default_model" →
        (mergeProfile base overrides).1.defaultModel = v.sprint)
      ∧ (goLower k ≠ "base_uri" → goLower k ≠ "api_key" →
          goLower k ≠ "default_model" →
          alookup ((mergeProfile base overrides).1.extra.getD []) k = some v) := by
  intro k v hmem
  have hne : overrides.isEmpty = false := by
    cases overrides with
    | nil => cases hmem
    | cons e rest => rfl
  have h := mergeFold_entry overrides (base, base.extra.getD []) hnd k v hmem
  refine ⟨?_, ?_, ?_, ?_⟩
  · intro hlow
    simpa [mergeProfile, hne] using h.1 hlow
  · intro hlow
    simpa [mergeProfile, hne] using h.2.1 hlow
  · intro hlow
    simpa [mergeProfile, hne] using h.2.2.1 hlow
  · intro h₁ h₂ h₃
    simpa [mergeProfile, hne] using h.2.2.2 h₁ h₂ h₃

/-- C6 — `ProviderRegistry.Resolve` functional correctness: an empty
`provider_profile_id` fails with `missing_profile_id`; an unregistered id
fails with `profile_not_found`; otherwise the merged profile is computed
(case-insensitive `base_uri`/`api_key`/`default_model` overrides overwrite
the field with the value's string form, all other entries land in `extra`
under their original key), then a missing factory for the merged kind fails
with `kind_not_registered`, and otherwise `factory(merged)` is returned
together with the merged profile.  Stated for overrides whose lower-cased
keys are pairwise distinct (Go map iteration order is unspecified, so with
duplicate case-insensitive keys the last write is not defined). -/
theorem resolve_functional_correctness_c6 (r : Registry) (step : StepDef)
    (hnd : (step.providerOverride.map (fun e => goLower e.1)).Nodup) :
    (step.providerProfileID = "" → (resolve r step).1 = .error .missingProfileId)
    ∧ (step.providerProfileID ≠ "" →
        alookup r.profiles step.providerProfileID = none →
        (resolve r step).1 = .error (.profileNotFound step.providerProfileID))
    ∧ (∀ profile, step.providerProfileID ≠ "" →
        alookup r.profiles step.providerProfileID = some profile →
        ((r.factoryKinds.contains (mergeProfile profile step.providerOverride).1.kind = false →
            (resolve r step).1 =
              .error (.kindNotRegistered (mergeProfile profile step.providerOverride).1.kind))
          ∧ (r.factoryKinds.contains (mergeProfile profile step.providerOverride).1.kind = true →
            (resolve r step).1 =
              .ok (⟨(mergeProfile profile step.providerOverride).1.kind,
                    (mergeProfile profile step.providerOverride).1⟩,
                   (mergeProfile profile step.providerOverride).1))
          ∧ ∀ k v, (k, v) ∈ step.providerOverride →
              (goLower k = "base_uri" →
                (mergeProfile profile step.providerOverride).1.baseURI = v.sprint)
              ∧ (goLower k = "api_key" →
                (mergeProfile profile step.providerOverride).1.apiKey = v.sprint)
              ∧ (goLower k = "default_model" →
                (mergeProfile profile step.providerOverride).1.defaultModel = v.sprint)
              ∧ (goLower k ≠ "base_uri" → goLower k ≠ "api_key" →
                  goLower k ≠ "default_model" →
                  alookup ((mergeProfile profile step.providerOverride).1.extra.getD [])
                    k = some v))) := by
  refine ⟨?_, ?_, ?_⟩
  · intro hempty
    simp [resolve, hempty]
  · intro hne hnone
    simp [resolve, hne, hnone]
  · intro profile hne hsome
    refine ⟨?_, ?_, ?_⟩
    · intro hnf
      have hmem : ¬ (mergeProfile profile step.providerOverride).1.kind ∈ r.factoryKinds := by
        simpa using hnf
      simp [resolve, hne, hsome, hmem]
    · intro hf
      have hmem : (mergeProfile profile step.providerOverride).1.kind ∈ r.factoryKinds := by
        simpa using hf
      simp [resolve, hne, hsome, hmem]
    · exact mergeProfile_spec profile step.providerOverride hnd

/-- Registry used as the C6 witness input. -/
def wRegC6 : Registry :=
  registerProfile { profiles := [], factoryKinds := ["openai", "ollama", "image", "local_tool"] }
    { id := "prof-a", kind := "openai", baseURI := "https://api.openai.com/v1",
      apiKey := "", defaultModel := "gpt-4o-mini", extra := none }

/-- Step used as the C6 witness input: one case-insensitive `base_uri`
override plus one open key. -/
def wStepC6 : StepDef :=
  { id := "s1", name := "Step", kind := "llm", mode := "single", dependsOn := [],
    providerProfileID := "prof-a",
    providerOverride := [("Base_URI", .str "http://localhost:1234"), ("temperature", .num 1)],
    promptSystem := "", promptUser := "", hasPrompt := false,
    outputType := "text", exportFlag := true }

/-- The profile stored in `wRegC6` under `prof-a` (extra normalised to an
empty map by `RegisterProfile`). -/
def wProfC6 : ProviderProfile :=
  { id := "prof-a", kind := "openai", baseURI := "https://api.openai.com/v1",
    apiKey := "", defaultModel := "gpt-4o-mini", extra := some [] }

/-- C6 witness: the theorem applied at a concrete registry and step. -/
theorem resolve_functional_correctness_c6_witness :
    (resolve wRegC6 wStepC6).1 =
      .ok (⟨"openai", (mergeProfile wProfC6 wStepC6.providerOverride).1⟩,
           (mergeProfile wProfC6 wStepC6.providerOverride).1)
    ∧ (mergeProfile wProfC6 wStepC6.providerOverride).1.baseURI = "http://localhost:1234"
    ∧ alookup ((mergeProfile wProfC6 wStepC6.providerOverride).1.extra.getD [])
        "temperature" = some (.num 1) := by
  have h := resolve_functional_correctness_c6 wRegC6 wStepC6 (by decide)
  have hsome : alookup wRegC6.profiles "prof-a" = some wProfC6 := by decide
  have hmain := h.2.2 wProfC6 (by decide) hsome
  refine ⟨?_, ?_, ?_⟩
  · exact hmain.2.1 (by decide)
  · exact (hmain.2.2 "Base_URI" (.str "http://localhost:1234") (by decide)).1 (by decide)
  · exact (hmain.2.2 "temperature" (.num 1) (by decide)).2.2.2
      (by decide) (by decide) (by decide)

/-- Registry used as the C4 failing input: one registered profile with an
empty (non-nil) extra map. -/
def wRegC4 : Registry :=
  registerProfile { profiles := [], factoryKinds := ["openai", "ollama", "image", "local_tool"] }
    { id := "p1", kind := "local_tool", baseURI := "local://tool",
      apiKey := "", defaultModel := "", extra := some [] }

/-- Step used as the C4 failing input: a single override entry whose key is
none of `base_uri`/`api_key`/`default_model`. -/
def wStepC4 : StepDef :=
  { id := "s1", name := "Step", kind := "custom", mode := "single", dependsOn := [],
    providerProfileID := "p1", providerOverride := [("retries", .num 3)],
    promptSystem := "", promptUser := "", hasPrompt := false,
    outputType := "text", exportFlag := false }

/-- C4 — the code violates the frame property: `mergeProfile` copies the
profile struct but shares its `Extra` map, so resolving a step whose
override has a key other than `base_uri`/`api_key`/`default_model` writes
that entry into the `Extra` map of the profile stored in the registry.
Before the call the stored extra map is empty; after a successful `Resolve`
it contains the override entry, so the registry state changed. -/
theorem resolve_mutates_registered_extra_c4 :
    (alookup wRegC4.profiles "p1").map ProviderProfile.extra = some (some [])
    ∧ (resolve wRegC4 wStepC4).1.toOption.isSome = true
    ∧ (alookup (resolve wRegC4 wStepC4).2.profiles "p1").map ProviderProfile.extra
        = some (some [("retries", JValue.num 3)])
    ∧ (resolve wRegC4 wStepC4).2 ≠ wRegC4 := by
  refine ⟨by decide, by decide, by decide, by decide⟩

/-! ## Job data model (types.go) -/

/-- JobStatus (types.go). -/
inductive JobStatus where
  | queued
  | running
  | succeeded
  | failed
  | cancelled
  deriving DecidableEq, Repr

/-- StepExecutionStatus (types.go). -/
inductive StepExecStatus where
  | pending
  | running
  | success
  | failed
  | skipped
  | cancelled
  deriving DecidableEq, Repr

/-- JobError (types.go); `details` is never set by the embedded code. -/
structure JobError where
  code : String
  message : String
  deriving DecidableEq, Repr

/-- StepChunk (types.go). -/
structure StepChunk where
  stepId : String
  index : Nat
  content : String
  deriving DecidableEq, Repr

/-- StepExecution (types.go); times are the logical clock. -/
structure StepExecution where
  stepId : String
  status : StepExecStatus
  startedAt : Option Nat
  finishedAt : Option Nat
  error : Option JobError
  chunks : List StepChunk
  deriving DecidableEq, Repr

/-- Source (types.go). -/
structure Source where
  kind : String
  label : String
  content : String
  metadata : JMap
  deriving DecidableEq, Repr

/-- JobOptions (types.go). -/
structure JobOptions where
  maxTokens : Int
  detailLevel : String
  language : String
  deriving DecidableEq, Repr

/-- JobInput (types.go). -/
structure JobInput where
  sources : List Source
  options : Option JobOptions
  deriving DecidableEq, Repr

/-- ResultItem (types.go); `data` is in practice always a `map[string]any`. -/
structure ResultItem where
  id : String
  label : String
  stepId : String
  shardKey : Option String
  isPrimary : Bool
  kind : String
  tag : String
  contentType : String
  data : JMap
  deriving DecidableEq, Repr

/-- JobResult (types.go). -/
structure JobResult where
  items : List ResultItem
  meta : JMap
  deriving DecidableEq, Repr

/-- Job (types.go); pointer-valued optional fields become `Option`. -/
structure Job where
  id : String
  pipelineType : String
  pipelineVersion : String
  status : JobStatus
  createdAt : Nat
  updatedAt : Nat
  input : JobInput
  result : Option JobResult
  error : Option JobError
  stepExecutions : List StepExecution
  parentJobId : Option String
  mode : String
  rerunFromStep : Option String
  reuseUpstream : Bool
  deriving DecidableEq, Repr

/-- isTerminal (engine.go). -/
def isTerminal : JobStatus → Bool
  | .succeeded | .failed | .cancelled => true
  | _ => false

/-! ## Streaming tracker (StreamingTracker.Diff) -/

/-- Payload attached to a streaming event (`Data interface{}`). -/
inductive EData where
  | jobD (j : Job)
  | stepD (s : StepExecution)
  | chunkD (c : StepChunk)
  | itemD (i : ResultItem)
  | strD (s : String)
  deriving DecidableEq, Repr

/-- StreamingEvent (types.go); `seq` 0 stands for not-yet-stamped
(`omitempty` uint64). -/
structure StreamingEvent where
  seq : Nat
  event : String
  jobID : String
  data : EData
  deriving DecidableEq, Repr

/-- StreamingTracker state.  Go's zero-valued `lastStatus JobStatus` (the
empty string, distinct from every real status) is `none`; the two maps have
Go's zero-default reads, modelled by `alookup … |>.getD`. -/
structure StreamTracker where
  lastStatus : Option JobStatus
  stepStatus : List (String × StepExecStatus)
  lastItemCount : Nat
  sentStarted : Bool
  chunkCount : List (String × Nat)
  deriving DecidableEq, Repr

/-- NewStreamingTracker. -/
def newStreamingTracker : StreamTracker :=
  { lastStatus := none, stepStatus := [], lastItemCount := 0,
    sentStarted := false, chunkCount := [] }

/-- Terminal event name chosen in the Diff status block. -/
def terminalName : JobStatus → String
  | .failed => "job_failed"
  | .cancelled => "job_cancelled"
  | _ => "job_completed"

/-- Step event name for a changed step status (the Go switch; `pending` and
`skipped` have no case and emit nothing). -/
def stepEventName : StepExecStatus → Option String
  | .running => some "step_started"
  | .success => some "step_completed"
  | .failed => some "step_failed"
  | .cancelled => some "step_cancelled"
  | _ => none

/-- Status-change part of the per-step Diff body (the map is updated even
when no event is emitted). -/
def diffStepStatus (jid : String) (t : StreamTracker) (se : StepExecution) :
    List StreamingEvent × StreamTracker :=
  if alookup t.stepStatus se.stepId ≠ some se.status then
    let t' := { t with stepStatus := aset t.stepStatus se.stepId se.status }
    match stepEventName se.status with
    | some n => ([⟨0, n, jid, .stepD se⟩], t')
    | none => ([], t')
  else ([], t)

/-- New-chunk part of the per-step Diff body (`seen` is the recorded chunk
count, zero when the step has no entry yet). -/
def diffStepChunks (jid : String) (t : StreamTracker) (se : StepExecution) :
    List StreamingEvent × StreamTracker :=
  if se.chunks.length > 0 then
    if se.chunks.length > (alookup t.chunkCount se.stepId).getD 0 then
      ((se.chunks.drop ((alookup t.chunkCount se.stepId).getD 0)).map
          (fun c => ⟨0, "provider_chunk", jid, .chunkD c⟩),
       { t with chunkCount := aset t.chunkCount se.stepId se.chunks.length })
    else ([], t)
  else ([], t)

/-- Per-step body of the Diff loop. -/
def diffStep (jid : String) (t : StreamTracker) (se : StepExecution) :
    List StreamingEvent × StreamTracker :=
  let (evts1, t1) := diffStepStatus jid t se
  let (evts2, t2) := diffStepChunks jid t1 se
  (evts1 ++ evts2, t2)

/-- The Diff loop over all step executions, in order. -/
def diffSteps (jid : String) (t : StreamTracker) :
    List StepExecution → List StreamingEvent × StreamTracker
  | [] => ([], t)
  | se :: rest =>
    let (evts, t1) := diffStep jid t se
    let (evtsRest, t2) := diffSteps jid t1 rest
    (evts ++ evtsRest, t2)

/-- First-`running` part of the status block: `job_started` once. -/
def diffJobStarted (t : StreamTracker) (job : Job) :
    List StreamingEvent × StreamTracker :=
  if job.status = .running ∧ t.sentStarted = false then
    ([⟨0, "job_started", job.id, .jobD job⟩], { t with sentStarted := true })
  else ([], t)

/-- Job-status block at the top of Diff (`job_started`, `job_status`, the
terminal event and `stream_finished`). -/
def diffJobStatus (t : StreamTracker) (job : Job) :
    List StreamingEvent × StreamTracker :=
  if t.lastStatus ≠ some job.status then
    let tb : StreamTracker :=
      { (diffJobStarted t job).2 with lastStatus := some job.status }
    let statusEvts :=
      (diffJobStarted t job).1 ++ [⟨0, "job_status", job.id, .jobD job⟩]
    if isTerminal job.status then
      (statusEvts ++ [⟨0, terminalName job.status, job.id, .jobD job⟩,
                      ⟨0, "stream_finished", job.id, .jobD job⟩], tb)
    else (statusEvts, tb)
  else ([], t)

/-- Number of result items of a job snapshot (0 when `Result` is nil). -/
def itemCount (job : Job) : Nat :=
  match job.result with
  | none => 0
  | some r => r.items.length

/-- New-item events at the bottom of Diff. -/
def diffItems (t : StreamTracker) (job : Job) : List StreamingEvent :=
  match job.result with
  | none => []
  | some r =>
    if itemCount job > t.lastItemCount then
      (r.items.drop t.lastItemCount).map
        (fun i => ⟨0, "item_completed", job.id, .itemD i⟩)
    else []

/-- StreamingTracker.Diff.  The Go receiver is mutated in place; the model
returns the events together with the updated tracker.  `lastItemCount` is
assigned unconditionally, as in the source. -/
def diff (t : StreamTracker) (job : Job) : List StreamingEvent × StreamTracker :=
  let (evts1, t1) := diffJobStatus t job
  let (evts2, t2) := diffSteps job.id t1 job.stepExecutions
  let evts3 := diffItems t2 job
  (evts1 ++ evts2 ++ evts3, { t2 with lastItemCount := itemCount job })

/-- Successive Diff calls on one tracker over a list of job snapshots. -/
def runTracker (t : StreamTracker) : List Job → List StreamingEvent × StreamTracker
  | [] => ([], t)
  | j :: rest =>
    let (evts, t1) := diff t j
    let (evtsRest, t2) := runTracker t1 rest
    (evts ++ evtsRest, t2)

/-- Concatenated events of successive Diff calls on a fresh tracker. -/
def trackerEvents (js : List Job) : List StreamingEvent :=
  (runTracker newStreamingTracker js).1

/-- Number of events with a given name. -/
def countEvt (n : String) (l : List StreamingEvent) : Nat :=
  (l.filter (fun e => e.event = n)).length

/-- Result item used in the C2 snapshots. -/
def c2item : ResultItem :=
  { id := "item-1", label := "result", stepId := "s1", shardKey := none,
    isPrimary := false, kind := "llm", tag := "", contentType := "text",
    data := [("text", .str "hi")] }

/-- First C2 snapshot: freshly queued job with one pending step. -/
def c2snap0 : Job :=
  { id := "job-1", pipelineType := "p", pipelineVersion := "v0",
    status := .queued, createdAt := 0, updatedAt := 0,
    input := ⟨[], none⟩, result := none, error := none,
    stepExecutions := [⟨"s1", .pending, none, none, none, []⟩],
    parentJobId := none, mode := "async", rerunFromStep := none,
    reuseUpstream := false }

/-- Second C2 snapshot: the same job seen again only after it finished —
terminal status, successful step and an exported item all in one Diff. -/
def c2snap1 : Job :=
  { c2snap0 with
    status := .succeeded, updatedAt := 2,
    stepExecutions := [⟨"s1", .success, some 1, some 2, none, []⟩],
    result := some ⟨[c2item], []⟩ }

/-- C2 counterexample: on the snapshot pair above, the second Diff call
returns `stream_finished` followed by `step_completed` and
`item_completed`, so `stream_finished` is not the last event produced. -/
theorem tracker_stream_finished_not_last_c2 :
    (trackerEvents [c2snap0, c2snap1]).map (fun e => e.event)
      = ["job_status", "job_status", "job_completed", "stream_finished",
         "step_completed", "item_completed"]
    ∧ (trackerEvents [c2snap0, c2snap1]).getLast?.map (fun e => e.event)
        ≠ some "stream_finished" := by
  refine ⟨by decide, by decide⟩

/-! ### Tracker lemmas -/

/-- Chunk count the tracker has recorded for a step (0 when absent). -/
def chunkSeen (t : StreamTracker) (se : StepExecution) : Nat :=
  (alookup t.chunkCount se.stepId).getD 0

/-- Names of step-level and item-level events. -/
def auxEventNames : List String :=
  ["step_started", "step_completed", "step_failed", "step_cancelled",
   "provider_chunk", "item_completed"]

theorem diffStepStatus_names (jid : String) (t : StreamTracker) (se : StepExecution) :
    ∀ e ∈ (diffStepStatus jid t se).1, e.event ∈ auxEventNames := by
  intro e he
  unfold diffStepStatus at he
  split at he
  · cases hse : se.status <;> simp [stepEventName, hse] at he <;>
      simp [he, auxEventNames]
  · simp at he

theorem diffStepChunks_names (jid : String) (t : StreamTracker) (se : StepExecution) :
    ∀ e ∈ (diffStepChunks jid t se).1, e.event ∈ auxEventNames := by
  intro e he
  unfold diffStepChunks at he
  split at he
  · split at he
    · obtain ⟨c, _, hc⟩ := List.mem_map.mp he
      simp [← hc, auxEventNames]
    · simp at he
  · simp at he

theorem diffStep_names (jid : String) (t : StreamTracker) (se : StepExecution) :
    ∀ e ∈ (diffStep jid t se).1, e.event ∈ auxEventNames := by
  intro e he
  unfold diffStep at he
  rcases List.mem_append.mp he with h | h
  · exact diffStepStatus_names jid t se e h
  · exact diffStepChunks_names jid _ se e h

theorem diffSteps_names (jid : String) (t : StreamTracker) (ses : List StepExecution) :
    ∀ e ∈ (diffSteps jid t ses).1, e.event ∈ auxEventNames := by
  induction ses generalizing t with
  | nil => intro e he; simp [diffSteps] at he
  | cons se rest ih =>
    intro e he
    unfold diffSteps at he
    rcases List.mem_append.mp he with h | h
    · exact diffStep_names jid t se e h
    · exact ih _ e h

theorem diffItems_names (t : StreamTracker) (job : Job) :
    ∀ e ∈ diffItems t job, e.event ∈ auxEventNames := by
  intro e he
  unfold diffItems at he
  split at he
  · simp at he
  · split at he
    · obtain ⟨i, _, hi⟩ := List.mem_map.mp he
      simp [← hi, auxEventNames]
    · simp at he

/-- `diffStepStatus` records the step's status under its id. -/
theorem diffStepStatus_lookup (jid : String) (t : StreamTracker) (se : StepExecution) :
    alookup (diffStepStatus jid t se).2.stepStatus se.stepId = some se.status := by
  unfold diffStepStatus
  split
  · split <;> simp [alookup_aset_self]
  · simp_all

/-- `diffStepStatus` touches only the `stepStatus` entry of its own step. -/
theorem diffStepStatus_frame (jid : String) (t : StreamTracker) (se : StepExecution) :
    (∀ k, k ≠ se.stepId →
      alookup (diffStepStatus jid t se).2.stepStatus k = alookup t.stepStatus k)
    ∧ (diffStepStatus jid t se).2.chunkCount = t.chunkCount
    ∧ (diffStepStatus jid t se).2.lastStatus = t.lastStatus
    ∧ (diffStepStatus jid t se).2.sentStarted = t.sentStarted
    ∧ (diffStepStatus jid t se).2.lastItemCount = t.lastItemCount := by
  unfold diffStepStatus
  split
  · split <;>
      exact ⟨fun k hk => alookup_aset_ne _ _ (fun h => hk h.symm), rfl, rfl, rfl, rfl⟩
  · exact ⟨fun k _ => rfl, rfl, rfl, rfl, rfl⟩

/-- `diffStepChunks` leaves the recorded chunk count at or above the step's
current chunk-list length. -/
theorem diffStepChunks_lookup (jid : String) (t : StreamTracker) (se : StepExecution) :
    se.chunks.length ≤ chunkSeen (diffStepChunks jid t se).2 se := by
  unfold diffStepChunks chunkSeen
  split
  · split
    · simp [alookup_aset_self]
    · show se.chunks.length ≤ (alookup t.chunkCount se.stepId).getD 0
      omega
  · show se.chunks.length ≤ (alookup t.chunkCount se.stepId).getD 0
    omega

/-- `diffStepChunks` touches only the `chunkCount` entry of its own step. -/
theorem diffStepChunks_frame (jid : String) (t : StreamTracker) (se : StepExecution) :
    (∀ k, k ≠ se.stepId →
      alookup (diffStepChunks jid t se).2.chunkCount k = alookup t.chunkCount k)
    ∧ (diffStepChunks jid t se).2.stepStatus = t.stepStatus
    ∧ (diffStepChunks jid t se).2.lastStatus = t.lastStatus
    ∧ (diffStepChunks jid t se).2.sentStarted = t.sentStarted
    ∧ (diffStepChunks jid t se).2.lastItemCount = t.lastItemCount := by
  unfold diffStepChunks
  split
  · split
    · exact ⟨fun k hk => alookup_aset_ne _ _ (fun h => hk h.symm), rfl, rfl, rfl, rfl⟩
    · exact ⟨fun k _ => rfl, rfl, rfl, rfl, rfl⟩
  · exact ⟨fun k _ => rfl, rfl, rfl, rfl, rfl⟩

/-- No event and no state change when the step's status is already recorded. -/
theorem diffStepStatus_noemit (jid : String) (t : StreamTracker) (se : StepExecution)
    (h : alookup t.stepStatus se.stepId = some se.status) :
    diffStepStatus jid t se = ([], t) := by
  unfold diffStepStatus
  simp [h]

/-- No event and no state change when the chunk list has not grown. -/
theorem diffStepChunks_noemit (jid : String) (t : StreamTracker) (se : StepExecution)
    (h : se.chunks.length ≤ chunkSeen t se) :
    diffStepChunks jid t se = ([], t) := by
  unfold diffStepChunks
  unfold chunkSeen at h
  split
  · split
    · omega
    · rfl
  · rfl

/-- After `diffStep` the tracker records the step's status and at least its
current chunk count. -/
theorem diffStep_lookup (jid : String) (t : StreamTracker) (se : StepExecution) :
    alookup (diffStep jid t se).2.stepStatus se.stepId = some se.status
    ∧ se.chunks.length ≤ chunkSeen (diffStep jid t se).2 se := by
  unfold diffStep
  constructor
  · rw [(diffStepChunks_frame jid _ se).2.1]
    exact diffStepStatus_lookup jid t se
  · exact diffStepChunks_lookup jid _ se

/-- `diffStep` touches only its own step's entries and no scalar field. -/
theorem diffStep_frame (jid : String) (t : StreamTracker) (se : StepExecution) :
    (∀ k, k ≠ se.stepId →
      alookup (diffStep jid t se).2.stepStatus k = alookup t.stepStatus k
      ∧ alookup (diffStep jid t se).2.chunkCount k = alookup t.chunkCount k)
    ∧ (diffStep jid t se).2.lastStatus = t.lastStatus
    ∧ (diffStep jid t se).2.sentStarted = t.sentStarted
    ∧ (diffStep jid t se).2.lastItemCount = t.lastItemCount := by
  unfold diffStep
  have hs := diffStepStatus_frame jid t se
  have hc := diffStepChunks_frame jid (diffStepStatus jid t se).2 se
  refine ⟨fun k hk => ⟨?_, ?_⟩, ?_, ?_, ?_⟩
  · rw [hc.2.1]; exact (hs.1 k hk)
  · rw [hc.1 k hk, hs.2.1]
  · rw [hc.2.2.1, hs.2.2.1]
  · rw [hc.2.2.2.1, hs.2.2.2.1]
  · rw [hc.2.2.2.2, hs.2.2.2.2]

/-- `diffStep` emits nothing and leaves the tracker unchanged when the
step's status and chunk count are already recorded. -/
theorem diffStep_noemit (jid : String) (t : StreamTracker) (se : StepExecution)
    (h1 : alookup t.stepStatus se.stepId = some se.status)
    (h2 : se.chunks.length ≤ chunkSeen t se) :
    diffStep jid t se = ([], t) := by
  simp [diffStep, diffStepStatus_noemit jid t se h1, diffStepChunks_noemit jid t se h2]

/-- `diffSteps` touches only the entries of the listed steps and no scalar
field. -/
theorem diffSteps_frame (jid : String) (ses : List StepExecution) (t : StreamTracker) :
    (∀ k, k ∉ ses.map StepExecution.stepId →
      alookup (diffSteps jid t ses).2.stepStatus k = alookup t.stepStatus k
      ∧ alookup (diffSteps jid t ses).2.chunkCount k = alookup t.chunkCount k)
    ∧ (diffSteps jid t ses).2.lastStatus = t.lastStatus
    ∧ (diffSteps jid t ses).2.sentStarted = t.sentStarted
    ∧ (diffSteps jid t ses).2.lastItemCount = t.lastItemCount := by
  induction ses generalizing t with
  | nil => exact ⟨fun k _ => ⟨rfl, rfl⟩, rfl, rfl, rfl⟩
  | cons se rest ih =>
    have hstep := diffStep_frame jid t se
    have hrest := ih (diffStep jid t se).2
    refine ⟨fun k hk => ?_, ?_, ?_, ?_⟩
    · have hk1 : k ≠ se.stepId := by
        intro h; exact hk (by simp [h])
      have hk2 : k ∉ rest.map StepExecution.stepId := by
        intro h; exact hk (by simp [h])
      unfold diffSteps
      constructor
      · rw [(hrest.1 k hk2).1, (hstep.1 k hk1).1]
      · rw [(hrest.1 k hk2).2, (hstep.1 k hk1).2]
    · show (diffSteps jid (diffStep jid t se).2 rest).2.lastStatus = _
      rw [hrest.2.1, hstep.2.1]
    · show (diffSteps jid (diffStep jid t se).2 rest).2.sentStarted = _
      rw [hrest.2.2.1, hstep.2.2.1]
    · show (diffSteps jid (diffStep jid t se).2 rest).2.lastItemCount = _
      rw [hrest.2.2.2, hstep.2.2.2]

/-- After `diffSteps` over steps with pairwise-distinct ids, every listed
step's status and chunk count are recorded. -/
theorem diffSteps_lookup (jid : String) (ses : List StepExecution) (t : StreamTracker)
    (hnd : (ses.map StepExecution.stepId).Nodup) :
    ∀ se ∈ ses,
      alookup (diffSteps jid t ses).2.stepStatus se.stepId = some se.status
      ∧ se.chunks.length ≤ chunkSeen (diffSteps jid t ses).2 se := by
  induction ses generalizing t with
  | nil => intro se hse; cases hse
  | cons se0 rest ih =>
    intro se hse
    have hnd' : (rest.map StepExecution.stepId).Nodup := (List.nodup_cons.mp hnd).2
    have hnotin : se0.stepId ∉ rest.map StepExecution.stepId := (List.nodup_cons.mp hnd).1
    rcases List.mem_cons.mp hse with rfl | htail
    · have hfr := (diffSteps_frame jid rest (diffStep jid t se).2).1 se.stepId hnotin
      have hlk := diffStep_lookup jid t se
      constructor
      · show alookup (diffSteps jid (diffStep jid t se).2 rest).2.stepStatus se.stepId = _
        rw [hfr.1]; exact hlk.1
      · show se.chunks.length ≤ chunkSeen (diffSteps jid (diffStep jid t se).2 rest).2 se
        unfold chunkSeen
        rw [hfr.2]
        exact hlk.2
    · exact ih (diffStep jid t se0).2 hnd' se htail

/-- `diffSteps` emits nothing and leaves the tracker unchanged when every
listed step's status and chunk count are already recorded. -/
theorem diffSteps_noemit (jid : String) (ses : List StepExecution) (t : StreamTracker)
    (h : ∀ se ∈ ses, alookup t.stepStatus se.stepId = some se.status
        ∧ se.chunks.length ≤ chunkSeen t se) :
    diffSteps jid t ses = ([], t) := by
  induction ses with
  | nil => rfl
  | cons se rest ih =>
    have hse := h se (List.mem_cons_self _ _)
    have hstep := diffStep_noemit jid t se hse.1 hse.2
    have hrest := ih (fun se' hse' => h se' (List.mem_cons_of_mem _ hse'))
    simp [diffSteps, hstep, hrest]

/-- `diff` unfolded into its three sequential parts. -/
theorem diff_eq (t : StreamTracker) (j : Job) :
    diff t j =
      ((diffJobStatus t j).1
         ++ (diffSteps j.id (diffJobStatus t j).2 j.stepExecutions).1
         ++ diffItems (diffSteps j.id (diffJobStatus t j).2 j.stepExecutions).2 j,
       { (diffSteps j.id (diffJobStatus t j).2 j.stepExecutions).2 with
          lastItemCount := itemCount j }) := rfl

/-- After the status block, `lastStatus` is the snapshot's status. -/
theorem diffJobStatus_lastStatus (t : StreamTracker) (j : Job) :
    (diffJobStatus t j).2.lastStatus = some j.status := by
  unfold diffJobStatus
  split
  · split <;> rfl
  · simp_all

/-- The status block leaves the step maps and the item count alone. -/
theorem diffJobStatus_frame (t : StreamTracker) (j : Job) :
    (diffJobStatus t j).2.stepStatus = t.stepStatus
    ∧ (diffJobStatus t j).2.chunkCount = t.chunkCount
    ∧ (diffJobStatus t j).2.lastItemCount = t.lastItemCount := by
  unfold diffJobStatus diffJobStarted
  split
  · split <;> split <;> exact ⟨rfl, rfl, rfl⟩
  · exact ⟨rfl, rfl, rfl⟩

/-- No status-block events when the status is already recorded. -/
theorem diffJobStatus_noemit (t : StreamTracker) (j : Job)
    (h : t.lastStatus = some j.status) : diffJobStatus t j = ([], t) := by
  unfold diffJobStatus
  simp [h]

/-- Exact shape of the status block on a first-seen terminal status:
`job_status`, the terminal event, then `stream_finished`. -/
theorem diffJobStatus_terminal (t : StreamTracker) (j : Job)
    (h1 : t.lastStatus ≠ some j.status) (h2 : isTerminal j.status = true) :
    diffJobStatus t j =
      ([⟨0, "job_status", j.id, .jobD j⟩,
        ⟨0, terminalName j.status, j.id, .jobD j⟩,
        ⟨0, "stream_finished", j.id, .jobD j⟩],
       { t with lastStatus := some j.status }) := by
  have hrun : ¬(j.status = .running ∧ t.sentStarted = false) := by
    rintro ⟨hr, _⟩
    rw [hr] at h2
    exact absurd h2 (by decide)
  unfold diffJobStatus diffJobStarted
  simp [h1, hrun, h2]

/-- On a non-terminal snapshot the status block emits only `job_started` or
`job_status`. -/
theorem diffJobStatus_nonterminal_names (t : StreamTracker) (j : Job)
    (h2 : isTerminal j.status = false) :
    ∀ e ∈ (diffJobStatus t j).1,
      e.event = "job_started" ∨ e.event = "job_status" := by
  intro e he
  unfold diffJobStatus diffJobStarted at he
  split at he
  · rw [h2] at he
    split at he
    · simp at he
      rcases he with he | he <;> simp [he]
    · simp at he
      simp [he]
  · simp at he

/-- `lastStatus` after a full `diff` is the snapshot's status. -/
theorem diff_lastStatus (t : StreamTracker) (j : Job) :
    (diff t j).2.lastStatus = some j.status := by
  rw [diff_eq]
  show (diffSteps j.id (diffJobStatus t j).2 j.stepExecutions).2.lastStatus = _
  rw [(diffSteps_frame j.id j.stepExecutions (diffJobStatus t j).2).2.1]
  exact diffJobStatus_lastStatus t j

/-- Diffing the same snapshot again emits nothing and leaves the tracker
unchanged (step ids assumed pairwise distinct, as produced by the engine). -/
theorem diff_self (t : StreamTracker) (j : Job)
    (hnd : (j.stepExecutions.map StepExecution.stepId).Nodup) :
    diff (diff t j).2 j = ([], (diff t j).2) := by
  have hlast : (diff t j).2.lastStatus = some j.status := diff_lastStatus t j
  have hlook : ∀ se ∈ j.stepExecutions,
      alookup (diff t j).2.stepStatus se.stepId = some se.status
      ∧ se.chunks.length ≤ chunkSeen (diff t j).2 se := by
    intro se hse
    have h := diffSteps_lookup j.id j.stepExecutions (diffJobStatus t j).2 hnd se hse
    rw [diff_eq]
    exact ⟨h.1, h.2⟩
  have hitems : (diff t j).2.lastItemCount = itemCount j := by
    rw [diff_eq]
  have hjs : diffJobStatus (diff t j).2 j = ([], (diff t j).2) :=
    diffJobStatus_noemit _ j hlast
  have hss : diffSteps j.id (diff t j).2 j.stepExecutions = ([], (diff t j).2) :=
    diffSteps_noemit j.id j.stepExecutions (diff t j).2 hlook
  have hit : diffItems (diff t j).2 j = [] := by
    unfold diffItems
    split
    · rfl
    · rename_i r hr
      have : itemCount j ≤ (diff t j).2.lastItemCount := le_of_eq hitems.symm
      simp only [gt_iff_lt]
      rw [if_neg (by omega)]
  have hfix : ({ (diff t j).2 with lastItemCount := itemCount j } : StreamTracker)
      = (diff t j).2 := by
    rw [← hitems]
  rw [diff_eq (diff t j).2 j, hjs, hss, hit, hfix]
  simp

/-- `runTracker` unfolded one snapshot. -/
theorem runTracker_cons (t : StreamTracker) (j : Job) (rest : List Job) :
    runTracker t (j :: rest) =
      ((diff t j).1 ++ (runTracker (diff t j).2 rest).1,
       (runTracker (diff t j).2 rest).2) := rfl

/-- `runTracker` splits over list append. -/
theorem runTracker_append (t : StreamTracker) (a b : List Job) :
    runTracker t (a ++ b) =
      ((runTracker t a).1 ++ (runTracker (runTracker t a).2 b).1,
       (runTracker (runTracker t a).2 b).2) := by
  induction a generalizing t with
  | nil => simp [runTracker]
  | cons j rest ih =>
    rw [List.cons_append, runTracker_cons, runTracker_cons, ih]
    simp

/-- A tracker fixed by a snapshot stays silent over any run of copies of
that snapshot. -/
theorem runTracker_fixpoint (t : StreamTracker) (j : Job) (post : List Job)
    (hfix : diff t j = ([], t)) (hpost : ∀ x ∈ post, x = j) :
    runTracker t post = ([], t) := by
  induction post with
  | nil => rfl
  | cons x rest ih =>
    have hx : x = j := hpost x (List.mem_cons_self _ _)
    subst hx
    rw [runTracker_cons, hfix]
    simp [ih (fun y hy => hpost y (List.mem_cons_of_mem _ hy))]

theorem countEvt_append (n : String) (a b : List StreamingEvent) :
    countEvt n (a ++ b) = countEvt n a + countEvt n b := by
  simp [countEvt, List.filter_append]

theorem countEvt_zero (n : String) (l : List StreamingEvent)
    (h : ∀ e ∈ l, e.event ≠ n) : countEvt n l = 0 := by
  unfold countEvt
  rw [List.length_eq_zero]
  rw [List.filter_eq_nil]
  intro e he
  simp [h e he]

/-- Potential used for the one-`job_started` argument. -/
def phiStarted (t : StreamTracker) : Nat := if t.sentStarted then 0 else 1

theorem aux_ne_started : ∀ s ∈ auxEventNames, s ≠ "job_started" := by decide

theorem aux_ne_finished : ∀ s ∈ auxEventNames, s ≠ "stream_finished" := by decide

theorem terminalName_ne_started (s : JobStatus) :
    terminalName s ≠ "job_started" := by
  cases s <;> simp [terminalName]

/-- The status block's contribution to the `job_started` potential. -/
theorem diffJobStatus_started_potential (t : StreamTracker) (j : Job) :
    countEvt "job_started" (diffJobStatus t j).1
      + phiStarted (diffJobStatus t j).2 ≤ phiStarted t := by
  unfold diffJobStatus diffJobStarted phiStarted
  split
  · split
    · rename_i h
      split <;>
        simp [countEvt, List.filter, h.2,
          decide_eq_false (terminalName_ne_started j.status)]
    · rename_i h
      split <;>
        simp [countEvt, List.filter,
          decide_eq_false (terminalName_ne_started j.status)]
  · simp [countEvt]

/-- Every `job_started` emission consumes the potential: a Diff call emits
at most `phiStarted t` of them and the potential never increases. -/
theorem diff_started_potential (t : StreamTracker) (j : Job) :
    countEvt "job_started" (diff t j).1 + phiStarted (diff t j).2 ≤ phiStarted t := by
  have hsteps : countEvt "job_started"
      (diffSteps j.id (diffJobStatus t j).2 j.stepExecutions).1 = 0 :=
    countEvt_zero _ _ (fun e he =>
      aux_ne_started _ (diffSteps_names j.id (diffJobStatus t j).2 j.stepExecutions e he))
  have hitems : countEvt "job_started"
      (diffItems (diffSteps j.id (diffJobStatus t j).2 j.stepExecutions).2 j) = 0 :=
    countEvt_zero _ _ (fun e he =>
      aux_ne_started _ (diffItems_names _ j e he))
  have hphi : phiStarted (diff t j).2 = phiStarted (diffJobStatus t j).2 := by
    rw [diff_eq]
    show phiStarted { (diffSteps j.id (diffJobStatus t j).2 j.stepExecutions).2 with
      lastItemCount := itemCount j } = _
    unfold phiStarted
    rw [show ({ (diffSteps j.id (diffJobStatus t j).2 j.stepExecutions).2 with
      lastItemCount := itemCount j } : StreamTracker).sentStarted
        = (diffSteps j.id (diffJobStatus t j).2 j.stepExecutions).2.sentStarted from rfl]
    rw [(diffSteps_frame j.id j.stepExecutions (diffJobStatus t j).2).2.2.1]
  have hblock := diffJobStatus_started_potential t j
  have hev : (diff t j).1 =
      (diffJobStatus t j).1
        ++ (diffSteps j.id (diffJobStatus t j).2 j.stepExecutions).1
        ++ diffItems (diffSteps j.id (diffJobStatus t j).2 j.stepExecutions).2 j := by
    rw [diff_eq]
  rw [hphi, hev, countEvt_append, countEvt_append, hsteps, hitems]
  omega

/-- The potential argument over a whole run. -/
theorem run_started_potential (js : List Job) (t : StreamTracker) :
    countEvt "job_started" (runTracker t js).1
      + phiStarted (runTracker t js).2 ≤ phiStarted t := by
  induction js generalizing t with
  | nil => simp [runTracker, countEvt]
  | cons j rest ih =>
    rw [runTracker_cons]
    show countEvt "job_started" ((diff t j).1 ++ (runTracker (diff t j).2 rest).1)
      + phiStarted (runTracker (diff t j).2 rest).2 ≤ phiStarted t
    rw [countEvt_append]
    have h1 := diff_started_potential t j
    have h2 := ih (diff t j).2
    omega

/-- Over any snapshot sequence a fresh tracker emits `job_started` at most
once. -/
theorem trackerEvents_started_le_one (js : List Job) :
    countEvt "job_started" (trackerEvents js) ≤ 1 := by
  have h := run_started_potential js newStreamingTracker
  have hnew : phiStarted newStreamingTracker = 1 := rfl
  unfold trackerEvents
  omega

/-- Events of a Diff on a non-terminal snapshot carry only non-terminal
names. -/
theorem diff_nonterminal_names (t : StreamTracker) (j : Job)
    (h : isTerminal j.status = false) :
    ∀ e ∈ (diff t j).1,
      e.event ∈ "job_started" :: "job_status" :: auxEventNames := by
  intro e he
  rw [diff_eq] at he
  rcases List.mem_append.mp he with h1 | h1
  · rcases List.mem_append.mp h1 with h2 | h2
    · rcases diffJobStatus_nonterminal_names t j h e h2 with h3 | h3 <;> simp [h3]
    · have := diffSteps_names j.id (diffJobStatus t j).2 j.stepExecutions e h2
      simp [this]
  · have := diffItems_names (diffSteps j.id (diffJobStatus t j).2 j.stepExecutions).2 j e h1
    simp [this]

/-- Over non-terminal snapshots a run emits only non-terminal event names. -/
theorem run_nonterminal_names (js : List Job) (t : StreamTracker)
    (h : ∀ j ∈ js, isTerminal j.status = false) :
    ∀ e ∈ (runTracker t js).1,
      e.event ∈ "job_started" :: "job_status" :: auxEventNames := by
  induction js generalizing t with
  | nil => intro e he; simp [runTracker] at he
  | cons j rest ih =>
    intro e he
    rw [runTracker_cons] at he
    rcases List.mem_append.mp he with h1 | h1
    · exact diff_nonterminal_names t j (h j (List.mem_cons_self _ _)) e h1
    · exact ih (diff t j).2 (fun x hx => h x (List.mem_cons_of_mem _ hx)) e h1

/-- `lastStatus` stays non-terminal over non-terminal snapshots. -/
theorem run_lastStatus_nonterminal (js : List Job) (t : StreamTracker)
    (h : ∀ j ∈ js, isTerminal j.status = false)
    (h0 : ∀ s, t.lastStatus = some s → isTerminal s = false) :
    ∀ s, (runTracker t js).2.lastStatus = some s → isTerminal s = false := by
  induction js generalizing t with
  | nil => exact h0
  | cons j rest ih =>
    rw [runTracker_cons]
    show ∀ s, (runTracker (diff t j).2 rest).2.lastStatus = some s → _
    refine ih (diff t j).2 (fun x hx => h x (List.mem_cons_of_mem _ hx)) ?_
    intro s hs
    rw [diff_lastStatus] at hs
    injection hs with hs
    rw [← hs]
    exact h j (List.mem_cons_self _ _)

theorem countEvt_cons (n : String) (e : StreamingEvent) (l : List StreamingEvent) :
    countEvt n (e :: l) = (if e.event = n then 1 else 0) + countEvt n l := by
  by_cases h : e.event = n <;> simp [countEvt, List.filter_cons, h, Nat.add_comm]

theorem terminalName_cases (s : JobStatus) :
    terminalName s = "job_completed" ∨ terminalName s = "job_failed"
      ∨ terminalName s = "job_cancelled" := by
  cases s <;> simp [terminalName]

theorem terminal_ne_allowed : ∀ n, (n = "job_completed" ∨ n = "job_failed"
      ∨ n = "job_cancelled") →
    ∀ s ∈ "job_started" :: "job_status" :: auxEventNames, s ≠ n := by
  rintro n (rfl | rfl | rfl) <;> decide

theorem terminal_ne_aux : ∀ n, (n = "job_completed" ∨ n = "job_failed"
      ∨ n = "job_cancelled") → ∀ s ∈ auxEventNames, s ≠ n := by
  rintro n (rfl | rfl | rfl) <;> decide

/-- C2 amended — over the concatenated outputs of successive Diff calls on
one StreamingTracker, at most one `job_started` is emitted; for a job whose
snapshots become terminal once and do not change afterwards (step ids
pairwise distinct), the terminal event and `stream_finished` are each
emitted exactly once, adjacent and in that order; but `stream_finished` is
only the last *job-level* event: step-status, chunk and item events detected
in the same final Diff call are appended after it. -/
theorem tracker_event_discipline_c2
    (pre : List Job) (jt : Job) (post : List Job)
    (hpre : ∀ j ∈ pre, isTerminal j.status = false)
    (hterm : isTerminal jt.status = true)
    (hpost : ∀ j ∈ post, j = jt)
    (hnd : (jt.stepExecutions.map StepExecution.stepId).Nodup) :
    countEvt "job_started" (trackerEvents (pre ++ jt :: post)) ≤ 1
    ∧ (∃ tail : List StreamingEvent,
        trackerEvents (pre ++ jt :: post)
          = trackerEvents pre
            ++ ([⟨0, "job_status", jt.id, .jobD jt⟩,
                 ⟨0, terminalName jt.status, jt.id, .jobD jt⟩,
                 ⟨0, "stream_finished", jt.id, .jobD jt⟩] ++ tail)
        ∧ ∀ e ∈ tail, e.event ∈ auxEventNames)
    ∧ countEvt "stream_finished" (trackerEvents (pre ++ jt :: post)) = 1
    ∧ countEvt (terminalName jt.status) (trackerEvents (pre ++ jt :: post)) = 1 := by
  have hterm3 := terminalName_cases jt.status
  -- the tracker state after the non-terminal prefix
  have hT0 : ∀ s, (runTracker newStreamingTracker pre).2.lastStatus = some s →
      isTerminal s = false :=
    run_lastStatus_nonterminal pre newStreamingTracker hpre
      (fun s hs => by simp [newStreamingTracker] at hs)
  have hne : (runTracker newStreamingTracker pre).2.lastStatus ≠ some jt.status := by
    intro h
    rw [hT0 jt.status h] at hterm
    cases hterm
  -- decomposition of the whole run
  have hsplit : trackerEvents (pre ++ jt :: post)
      = trackerEvents pre
        ++ (diff (runTracker newStreamingTracker pre).2 jt).1 := by
    unfold trackerEvents
    rw [runTracker_append]
    rw [runTracker_cons]
    rw [runTracker_fixpoint _ jt post
      (diff_self (runTracker newStreamingTracker pre).2 jt hnd) hpost]
    simp
  -- shape of the final Diff
  have hblock := diffJobStatus_terminal (runTracker newStreamingTracker pre).2 jt hne hterm
  have hdiff : (diff (runTracker newStreamingTracker pre).2 jt).1
      = [⟨0, "job_status", jt.id, .jobD jt⟩,
         ⟨0, terminalName jt.status, jt.id, .jobD jt⟩,
         ⟨0, "stream_finished", jt.id, .jobD jt⟩]
        ++ ((diffSteps jt.id
              (diffJobStatus (runTracker newStreamingTracker pre).2 jt).2
              jt.stepExecutions).1
            ++ diffItems (diffSteps jt.id
              (diffJobStatus (runTracker newStreamingTracker pre).2 jt).2
              jt.stepExecutions).2 jt) := by
    have hev : (diff (runTracker newStreamingTracker pre).2 jt).1 =
        (diffJobStatus (runTracker newStreamingTracker pre).2 jt).1
          ++ (diffSteps jt.id (diffJobStatus (runTracker newStreamingTracker pre).2 jt).2
                jt.stepExecutions).1
          ++ diffItems (diffSteps jt.id
                (diffJobStatus (runTracker newStreamingTracker pre).2 jt).2
                jt.stepExecutions).2 jt := by
      rw [diff_eq]
    rw [hev, hblock]
    simp
  have htail : ∀ e ∈ (diffSteps jt.id
        (diffJobStatus (runTracker newStreamingTracker pre).2 jt).2
        jt.stepExecutions).1
      ++ diffItems (diffSteps jt.id
        (diffJobStatus (runTracker newStreamingTracker pre).2 jt).2
        jt.stepExecutions).2 jt, e.event ∈ auxEventNames := by
    intro e he
    rcases List.mem_append.mp he with h1 | h1
    · exact diffSteps_names _ _ _ e h1
    · exact diffItems_names _ jt e h1
  have hprenames := run_nonterminal_names pre newStreamingTracker hpre
  have hprefin : countEvt "stream_finished" (trackerEvents pre) = 0 :=
    countEvt_zero _ _ (fun e he => by
      have hmem := hprenames e he
      have : ∀ s ∈ "job_started" :: "job_status" :: auxEventNames,
          s ≠ "stream_finished" := by decide
      exact this e.event hmem)
  have hpreterm : countEvt (terminalName jt.status) (trackerEvents pre) = 0 :=
    countEvt_zero _ _ (fun e he =>
      terminal_ne_allowed (terminalName jt.status) hterm3 e.event (hprenames e he))
  have htailfin : countEvt "stream_finished" ((diffSteps jt.id
        (diffJobStatus (runTracker newStreamingTracker pre).2 jt).2
        jt.stepExecutions).1
      ++ diffItems (diffSteps jt.id
        (diffJobStatus (runTracker newStreamingTracker pre).2 jt).2
        jt.stepExecutions).2 jt) = 0 :=
    countEvt_zero _ _ (fun e he => aux_ne_finished e.event (htail e he))
  have htailterm : countEvt (terminalName jt.status) ((diffSteps jt.id
        (diffJobStatus (runTracker newStreamingTracker pre).2 jt).2
        jt.stepExecutions).1
      ++ diffItems (diffSteps jt.id
        (diffJobStatus (runTracker newStreamingTracker pre).2 jt).2
        jt.stepExecutions).2 jt) = 0 :=
    countEvt_zero _ _ (fun e he =>
      terminal_ne_aux (terminalName jt.status) hterm3 e.event (htail e he))
  have hstatus_ne : ("job_status" : String) ≠ terminalName jt.status := by
    rcases hterm3 with h | h | h <;> rw [h] <;> decide
  have hfin_ne : ("stream_finished" : String) ≠ terminalName jt.status := by
    rcases hterm3 with h | h | h <;> rw [h] <;> decide
  have hterm_ne_fin : terminalName jt.status ≠ "stream_finished" := by
    rcases hterm3 with h | h | h <;> rw [h] <;> decide
  refine ⟨trackerEvents_started_le_one _, ⟨_, by rw [hsplit, hdiff], htail⟩, ?_, ?_⟩
  · rw [hsplit, hdiff, countEvt_append, countEvt_append, hprefin, htailfin]
    rw [countEvt_cons, countEvt_cons, countEvt_cons]
    simp [hterm_ne_fin, countEvt]
  · rw [hsplit, hdiff, countEvt_append, countEvt_append, hpreterm, htailterm]
    rw [countEvt_cons, countEvt_cons, countEvt_cons]
    simp [countEvt]
    rw [if_neg hstatus_ne, if_neg hfin_ne]

/-- C2 witness: the amended theorem applied to the concrete snapshot run
`[c2snap0, c2snap1, c2snap1]`. -/
theorem tracker_event_discipline_c2_witness :
    countEvt "job_started" (trackerEvents [c2snap0, c2snap1, c2snap1]) ≤ 1
    ∧ countEvt "stream_finished" (trackerEvents [c2snap0, c2snap1, c2snap1]) = 1
    ∧ countEvt (terminalName c2snap1.status)
        (trackerEvents [c2snap0, c2snap1, c2snap1]) = 1 := by
  have h := tracker_event_discipline_c2 [c2snap0] c2snap1 [c2snap1]
    (by decide) (by decide) (by decide) (by decide)
  exact ⟨h.1, h.2.2.1, h.2.2.2⟩

/-! ## HTTP event log (Handler.appendEvent, Handler.streamExistingJob) -/

/-- The per-job event-log state of the HTTP handler: `eventSeq` is the last
sequence number assigned per job id, `eventLogs` the retained stamped
events. -/
structure HandlerState where
  eventSeq : String → Nat
  eventLogs : String → List StreamingEvent

/-- The handler's maps start empty (`NewHandler`); a Go map read of a
missing key yields the zero value. -/
def emptyHandler : HandlerState := ⟨fun _ => 0, fun _ => []⟩

/-- Handler.appendEvent: events without a job id are returned unstamped and
not logged; otherwise the event is stamped `last_seq_for_job + 1`, the
counter advanced, and the stamped event appended to the job's log. -/
def appendEvent (h : HandlerState) (evt : StreamingEvent) :
    StreamingEvent × HandlerState :=
  if evt.jobID = "" then (evt, h)
  else
    let seq := h.eventSeq evt.jobID + 1
    let stamped := { evt with seq := seq }
    (stamped,
     { eventSeq := fun k => if k = evt.jobID then seq else h.eventSeq k,
       eventLogs := fun k =>
         if k = evt.jobID then h.eventLogs evt.jobID ++ [stamped]
         else h.eventLogs k })

/-- Folding `appendEvent` over a list of outbound events. -/
def appendEvents (h : HandlerState) : List StreamingEvent → HandlerState
  | [] => h
  | e :: rest => appendEvents (appendEvent h e).2 rest

/-- Handler-state invariant: per job the counter equals the log length and
the logged seq values are exactly `1, 2, …, length`. -/
def SeqDense (h : HandlerState) : Prop :=
  ∀ j, h.eventSeq j = (h.eventLogs j).length
    ∧ (h.eventLogs j).map StreamingEvent.seq
        = List.range' 1 (h.eventLogs j).length

theorem seqDense_empty : SeqDense emptyHandler := by
  intro j
  exact ⟨rfl, rfl⟩

theorem appendEvent_seqDense (h : HandlerState) (e : StreamingEvent)
    (hd : SeqDense h) : SeqDense (appendEvent h e).2 := by
  unfold appendEvent
  split
  · exact hd
  · intro j
    by_cases hj : j = e.jobID
    · subst hj
      have h1 := (hd e.jobID).1
      have h2 := (hd e.jobID).2
      constructor
      · simp [h1]
      · simp [List.map_append, h2, h1, List.range'_concat]
        omega
    · simpa [hj] using hd j

/-- SeqDense holds after stamping any sequence of events from a fresh
handler. -/
theorem appendEvents_seqDense (evts : List StreamingEvent) (h : HandlerState)
    (hd : SeqDense h) : SeqDense (appendEvents h evts) := by
  induction evts generalizing h with
  | nil => exact hd
  | cons e rest ih => exact ih _ (appendEvent_seqDense h e hd)

/-- C5 — per job, the seq values stamped by the HTTP layer are exactly
`1, 2, …, N` (strictly increasing, no gaps): after any sequence of
`appendEvent` calls from a fresh handler, every job's logged seq values are
`range' 1 N`; each stamped event receives `last_seq_for_job + 1`; and the
first event stamped for a fresh job id — the `job_queued` event emitted by
`createJob` when a streaming create is accepted — receives seq 1. -/
theorem event_seq_dense_c5 (evts : List StreamingEvent) :
    (∀ j, List.map StreamingEvent.seq ((appendEvents emptyHandler evts).eventLogs j)
        = List.range' 1 ((appendEvents emptyHandler evts).eventLogs j).length)
    ∧ (∀ (h : HandlerState) (e : StreamingEvent), e.jobID ≠ "" →
        (appendEvent h e).1.seq = h.eventSeq e.jobID + 1)
    ∧ (∀ (h : HandlerState) (e : StreamingEvent), e.jobID ≠ "" →
        h.eventSeq e.jobID = 0 → (appendEvent h e).1.seq = 1) := by
  refine ⟨fun j => (appendEvents_seqDense evts emptyHandler seqDense_empty j).2,
    ?_, ?_⟩
  · intro h e he
    unfold appendEvent
    rw [if_neg he]
  · intro h e he h0
    unfold appendEvent
    rw [if_neg he]
    simp [h0]

/-- The `job_queued` event stamped by `createJob` on the C5 witness run. -/
def wEvtQueued : StreamingEvent :=
  ⟨0, "job_queued", "job-9", .strD ""⟩

/-- C5 witness: three stamped events for one job get seqs 1, 2, 3, and the
`job_queued` event of a fresh job gets seq 1. -/
theorem event_seq_dense_c5_witness :
    List.map StreamingEvent.seq
      ((appendEvents emptyHandler
        [wEvtQueued, ⟨0, "job_started", "job-9", .strD ""⟩,
         ⟨0, "job_status", "job-9", .strD ""⟩]).eventLogs "job-9") = [1, 2, 3]
    ∧ (appendEvent emptyHandler wEvtQueued).1.seq = 1 := by
  have h := event_seq_dense_c5
    [wEvtQueued, ⟨0, "job_started", "job-9", .strD ""⟩,
     ⟨0, "job_status", "job-9", .strD ""⟩]
  refine ⟨?_, h.2.2 emptyHandler wEvtQueued (by decide) rfl⟩
  have h1 := h.1 "job-9"
  rw [h1]
  rfl

/-! ## after_seq parsing and replay (Handler.streamExistingJob) -/

/-- Go `strconv.ParseUint(s, 10, 64)`: succeeds exactly on a non-empty
all-digit string whose value fits in a uint64 (no sign, no prefixes; the
range error on overflow is an error, so the caller sees failure). -/
def parseUintDec (s : String) : Option Nat :=
  if s.data ≠ [] ∧ s.data.all (fun c => 48 ≤ c.toNat ∧ c.toNat ≤ 57) then
    let v := s.data.foldl (fun acc c => acc * 10 + (c.toNat - 48)) 0
    if v < 2 ^ 64 then some v else none
  else none

/-- The after_seq computation in streamExistingJob: `afterSeq` starts 0 and
is assigned only when the raw query value is non-empty and parses. -/
def afterSeqOf (raw : Option String) : Nat :=
  match raw with
  | none => 0
  | some s =>
    if s = "" then 0
    else
      match parseUintDec s with
      | some v => v
      | none => 0

/-- Handler.eventsAfter: the retained events with seq strictly above the
cursor. -/
def eventsAfter (logs : List StreamingEvent) (afterSeq : Nat) :
    List StreamingEvent :=
  logs.filter (fun e => e.seq > afterSeq)

/-- C10 — a present but malformed `after_seq` (non-numeric, signed, or out
of range) is silently treated as 0: the handler replays the job's whole
event log (every stamped event has seq ≥ 1 > 0) and `streamExistingJob` has
no error-response branch for the parse, so no 400 is produced. -/
theorem after_seq_malformed_lenient_c10 (raw : String)
    (hraw : raw ≠ "") (hbad : parseUintDec raw = none) :
    afterSeqOf (some raw) = 0
    ∧ ∀ logs : List StreamingEvent, (∀ e ∈ logs, 1 ≤ e.seq) →
        eventsAfter logs (afterSeqOf (some raw)) = logs := by
  have h0 : afterSeqOf (some raw) = 0 := by
    show (if raw = "" then 0
      else match parseUintDec raw with | some v => v | none => 0) = 0
    rw [if_neg hraw, hbad]
  refine ⟨h0, fun logs hlogs => ?_⟩
  rw [h0]
  unfold eventsAfter
  rw [List.filter_eq_self]
  intro e he
  have := hlogs e he
  simp
  omega

/-- C10 witness: the lenient parse applied to the malformed value `"-1"`
and a two-event log. -/
theorem after_seq_malformed_lenient_c10_witness :
    afterSeqOf (some "-1") = 0
    ∧ eventsAfter [⟨1, "job_queued", "j", .strD ""⟩,
        ⟨2, "stream_finished", "j", .strD ""⟩] (afterSeqOf (some "-1"))
      = [⟨1, "job_queued", "j", .strD ""⟩,
         ⟨2, "stream_finished", "j", .strD ""⟩] := by
  have h := after_seq_malformed_lenient_c10 "-1" (by decide) (by decide)
  exact ⟨h.1, h.2 _ (by decide)⟩

/-! ## BasicEngine.CancelJob (engine.go)

The store is the authority on the final job state; `CancelJob` reads the
job, returns success unchanged when it is already terminal, and otherwise
writes the cancelled state (the cancellation signal and `clearCancel`
bookkeeping touch no job fields). -/

/-- Outcome of CancelJob (`nil` or the store's not-found error). -/
inductive CancelResult where
  | ok
  | notFound
  deriving DecidableEq, Repr

/-- The step-execution sweep in CancelJob: every `running` or `pending`
step becomes `cancelled` with `finished_at = now`. -/
def cancelStepExecs (ses : List StepExecution) (now : Nat) : List StepExecution :=
  ses.map (fun se =>
    if se.status = .running ∨ se.status = .pending then
      { se with status := .cancelled, finishedAt := some now }
    else se)

/-- BasicEngine.CancelJob over the job store. -/
def cancelJob (st : String → Option Job) (jobID reason : String) (now : Nat) :
    CancelResult × (String → Option Job) :=
  match st jobID with
  | none => (.notFound, st)
  | some job =>
    if isTerminal job.status then (.ok, st)
    else
      let reason := if reason = "" then "cancelled by user" else reason
      let cancelled : Job :=
        { job with
          status := JobStatus.cancelled,
          error := some ⟨"cancelled", reason⟩,
          updatedAt := now,
          stepExecutions := cancelStepExecs job.stepExecutions now }
      (.ok, fun k => if k = jobID then some cancelled else st k)

/-- C7 — CancelJob is idempotent: a second cancel leaves the store exactly
as the first did (for any store, id, reason and clock values); a cancel on
an already-terminal job returns success without mutating the store; and a
cancel on a missing id returns not_found without mutating the store. -/
theorem cancel_job_idempotent_c7 (st : String → Option Job)
    (jobID reason : String) (t1 t2 : Nat) :
    (cancelJob (cancelJob st jobID reason t1).2 jobID reason t2).2
        = (cancelJob st jobID reason t1).2
    ∧ (∀ job, st jobID = some job → isTerminal job.status = true →
        cancelJob st jobID reason t1 = (.ok, st))
    ∧ (st jobID = none →
        cancelJob st jobID reason t1 = (.notFound, st)) := by
  refine ⟨?_, ?_, ?_⟩
  · cases hjob : st jobID with
    | none => simp [cancelJob, hjob]
    | some job =>
      by_cases hterm : isTerminal job.status
      · simp [cancelJob, hjob, hterm]
      · have hst2 : (cancelJob st jobID reason t1).2 jobID
            = some ({ job with
                status := JobStatus.cancelled,
                error := some ⟨"cancelled",
                  if reason = "" then "cancelled by user" else reason⟩,
                updatedAt := t1,
                stepExecutions := cancelStepExecs job.stepExecutions t1 }) := by
          simp [cancelJob, hjob, hterm]
        set S := (cancelJob st jobID reason t1).2 with hSdef
        show (cancelJob S jobID reason t2).2 = S
        simp [cancelJob, hst2, isTerminal]
  · intro job hjob hterm
    unfold cancelJob
    rw [hjob]
    simp [hterm]
  · intro hnone
    unfold cancelJob
    rw [hnone]

/-- Concrete store for the C7 witness: one queued job under `"j1"`. -/
def wJobC7 : Job :=
  { id := "j1", pipelineType := "p", pipelineVersion := "v0",
    status := .running, createdAt := 0, updatedAt := 0,
    input := ⟨[], none⟩, result := none, error := none,
    stepExecutions := [⟨"s1", .running, some 0, none, none, []⟩],
    parentJobId := none, mode := "async", rerunFromStep := none,
    reuseUpstream := false }

def wStoreC7 : String → Option Job :=
  fun k => if k = "j1" then some wJobC7 else none

/-- C7 witness: the theorem applied at a concrete store — idempotence on a
running job, terminal no-op after the first cancel, and not_found on a
missing id. -/
theorem cancel_job_idempotent_c7_witness :
    (cancelJob (cancelJob wStoreC7 "j1" "user aborted" 5).2 "j1" "user aborted" 9).2
        = (cancelJob wStoreC7 "j1" "user aborted" 5).2
    ∧ cancelJob (cancelJob wStoreC7 "j1" "user aborted" 5).2 "j1" "x" 9
        = (.ok, (cancelJob wStoreC7 "j1" "user aborted" 5).2)
    ∧ cancelJob wStoreC7 "nope" "r" 1 = (.notFound, wStoreC7) := by
  refine ⟨(cancel_job_idempotent_c7 wStoreC7 "j1" "user aborted" 5 9).1, ?_, ?_⟩
  · exact (cancel_job_idempotent_c7 (cancelJob wStoreC7 "j1" "user aborted" 5).2
      "j1" "x" 9 1).2.1 _ (by rfl) (by rfl)
  · exact (cancel_job_idempotent_c7 wStoreC7 "nope" "r" 1 1).2.2 (by rfl)

/-! ## MemoryStore.GetJob / cloneJob (internal/store/memory.go)

`cloneJob` copies the job struct and allocates fresh `StepExecutions` and
`Result.Items` slices whose *elements* are struct copies — but a
`StepExecution`'s `Chunks` slice header and a `ResultItem`'s `Data` map are
references into shared backing storage, which the element copy does not
clone.  The model makes those references explicit as indices into a heap of
chunk arrays and data maps; everything `cloneJob` really copies is plain
value data. -/

namespace MemStore

/-- Backing storage shared between the store and the jobs it hands out. -/
structure Heap where
  chunkArrs : List (List StepChunk)
  dataMaps : List JMap
  deriving DecidableEq, Repr

/-- StepExecution as held by the store: `chunksRef` is the slice's backing
array. -/
structure RStepExec where
  stepId : String
  status : StepExecStatus
  startedAt : Option Nat
  finishedAt : Option Nat
  error : Option JobError
  chunksRef : Nat
  deriving DecidableEq, Repr

/-- ResultItem as held by the store: `dataRef` is the `Data` map object. -/
structure RItem where
  id : String
  label : String
  stepId : String
  shardKey : Option String
  isPrimary : Bool
  kind : String
  tag : String
  contentType : String
  dataRef : Nat
  deriving DecidableEq, Repr

structure RResult where
  items : List RItem
  meta : JMap
  deriving DecidableEq, Repr

/-- Job as held by the store (scalar fields beyond `status` behave exactly
like `status` under the struct copy and are omitted). -/
structure RJob where
  id : String
  status : JobStatus
  stepExecutions : List RStepExec
  result : Option RResult
  deriving DecidableEq, Repr

/-- cloneJob (memory.go): `copyJob := *job`; a fresh `StepExecutions` slice
filled by `copy` (struct copies — each element's `chunksRef` is carried
over, the backing array is not cloned); a fresh `Result`/`Items` slice the
same way (`dataRef` carried over, the map object not cloned). -/
def cloneJob (job : RJob) : RJob :=
  { job with
    stepExecutions := job.stepExecutions.map (fun se => se),
    result := job.result.map (fun r => { r with items := r.items.map (fun i => i) }) }

/-- MemoryStore: the jobs map plus the shared backing storage. -/
structure MStore where
  jobs : List (String × RJob)
  heap : Heap
  deriving DecidableEq, Repr

/-- MemoryStore.GetJob: a clone of the stored job, or not-found. -/
def getJob (st : MStore) (id : String) : Option RJob :=
  (alookup st.jobs id).map cloneJob

/-- In-place update of one list element (a Go `xs[i] = v` style write). -/
def listModify {α : Type} (l : List α) (i : Nat) (f : α → α) : List α :=
  match l, i with
  | [], _ => []
  | x :: xs, 0 => f x :: xs
  | x :: xs, n + 1 => x :: listModify xs n f

/-- A caller writing `job.StepExecutions[k].Chunks[idx].Content = content`
on a job it was handed: the write lands in the shared backing array. -/
def writeChunkContent (h : Heap) (ref idx : Nat) (content : String) : Heap :=
  let arrs := listModify h.chunkArrs ref
    (fun arr => listModify arr idx (fun c => { c with content := content }))
  { h with chunkArrs := arrs }

/-- A caller writing `item.Data[k] = v` on a job it was handed: the write
lands in the shared map object. -/
def writeDataEntry (h : Heap) (ref : Nat) (k : String) (v : JValue) : Heap :=
  { h with dataMaps := listModify h.dataMaps ref (fun m => aset m k v) }

/-- Chunk lists of a job, read through the heap. -/
def jobChunks (h : Heap) (j : RJob) : List (List StepChunk) :=
  j.stepExecutions.map (fun se => (h.chunkArrs.getD se.chunksRef []))

/-- Data maps of a job's result items, read through the heap. -/
def jobData (h : Heap) (j : RJob) : List JMap :=
  match j.result with
  | none => []
  | some r => r.items.map (fun i => (h.dataMaps.getD i.dataRef []))

/-- C9 failing input: one stored job with one chunk and one result item. -/
def c9heap : Heap := ⟨[[⟨"s1", 0, "hello"⟩]], [[("text", .str "dummy")]]⟩

def c9job : RJob :=
  { id := "j1", status := .succeeded,
    stepExecutions := [⟨"s1", .success, none, none, none, 0⟩],
    result := some ⟨[⟨"item-1", "summary", "s1", none, false, "text", "", "text", 0⟩], []⟩ }

def c9store : MStore := ⟨[("j1", c9job)], c9heap⟩

/-- The heap after the caller mutates the job returned by `GetJob`
(whose step 0 has `chunksRef` 0 and whose item 0 has `dataRef` 0, per the
first conjunct below): one chunk-content write and one data-map write. -/
def c9mutatedHeap : Heap :=
  writeDataEntry (writeChunkContent c9store.heap 0 0 "mutated") 0 "text" (.str "changed")

/-- C9 — the code violates deep-copy discipline: `cloneJob` shares the
chunk backing arrays and data maps with the stored job, so mutating the
nested state of the job returned by `GetJob` changes what every subsequent
`GetJob` returns.  The first two conjuncts locate the shared references and
the original contents; the last two show a subsequent read observing the
caller's writes. -/
theorem getjob_not_deep_copied_c9 :
    ((getJob c9store "j1").map (fun j => j.stepExecutions.map RStepExec.chunksRef)
        = some [0]
      ∧ (getJob c9store "j1").map (fun j => jobData c9store.heap j)
        = some [[("text", JValue.str "dummy")]]
      ∧ (getJob c9store "j1").map (fun j => jobChunks c9store.heap j)
        = some [[⟨"s1", 0, "hello"⟩]])
    ∧ (getJob { c9store with heap := c9mutatedHeap } "j1").map
        (fun j => jobChunks c9mutatedHeap j) = some [[⟨"s1", 0, "mutated"⟩]]
    ∧ (getJob { c9store with heap := c9mutatedHeap } "j1").map
        (fun j => jobData c9mutatedHeap j) = some [[("text", JValue.str "changed")]] := by
  refine ⟨⟨by decide, by decide, by decide⟩, by decide, by decide⟩

end MemStore

/-! ## Providers (callOpenAI, callOllama, image and local-tool stubs)

External HTTP interaction is a function from the request payload to a
reply; a cancellation that aborts an in-flight request surfaces as the
`canceled` error, exactly as `client.Do` returns `ctx.Err()`. -/

/-- A provider-call error: `context.Canceled`, or any other error carrying
its message. -/
inductive ExecError where
  | canceled
  | fail (msg : String)
  deriving DecidableEq, Repr

/-- `err.Error()` for the errors we model (`context.Canceled.Error()` is
the fixed string "context canceled"). -/
def errMessage : ExecError → String
  | .canceled => "context canceled"
  | .fail m => m

/-- Modelled from the spec: `ProviderChunk`, the chunk element produced by
providers (its definition is not under src/; the engine reads only its
`Content` field). -/
structure ProviderChunk where
  content : String
  deriving DecidableEq, Repr

/-- ProviderResponse (provider file; the canonical version carries
synthesized chunks). -/
structure ProviderResponse where
  output : String
  metadata : JMap
  chunks : List ProviderChunk
  deriving DecidableEq, Repr

/-- Modelled from the spec: `buildChunksFromText` (not under src/) —
"Chunks are synthesized by segmenting the final text (e.g., by
whitespace/length)"; modelled as whitespace segmentation. -/
def buildChunksFromText (text : String) : List ProviderChunk :=
  (text.splitOn " ").map (fun w => ⟨w⟩)

/-- Provider input context (`ProviderInput`). -/
structure PInput where
  sources : List Source
  options : Option JobOptions
  previous : List (String × List ResultItem)
  deriving Repr

/-- ProviderRequest. -/
structure PRequest where
  step : StepDef
  prompt : String
  profile : ProviderProfile
  input : PInput
  deriving Repr

/-- Outbound OpenAI HTTP payload (`openAIRequest` plus url and auth;
temperature is always 0). -/
structure OpenAIPayload where
  url : String
  apiKey : String
  model : String
  messages : List (String × String)
  deriving DecidableEq, Repr

/-- The decoded OpenAI HTTP exchange result: status code plus the decoded
`choices` contents (`none` models a body that fails to decode). -/
structure OpenAIReply where
  statusCode : Nat
  decoded : Option (List String)
  deriving DecidableEq, Repr

/-- Outbound Ollama HTTP payload (`ollamaRequest`; `stream` is always
false). -/
structure OllamaPayload where
  url : String
  model : String
  prompt : String
  system : String
  options : Option JMap
  deriving DecidableEq, Repr

/-- Decoded Ollama reply: status code plus decoded `response`/`model`
fields (`none` models a decode failure). -/
structure OllamaReply where
  statusCode : Nat
  decoded : Option (String × String)
  deriving DecidableEq, Repr

/-- The external world the providers talk to. -/
structure World where
  openai : OpenAIPayload → Except ExecError OpenAIReply
  ollama : OllamaPayload → Except ExecError OllamaReply

/-- Go `strings.TrimRight(s, "/")`. -/
def trimRightSlash (s : String) : String :=
  ⟨(s.data.reverse.dropWhile (fun c => c = '/')).reverse⟩

/-- `req.Profile.Extra["system_prompt"].(string)` when present and
non-empty. -/
def sysPromptOf (p : ProviderProfile) : Option String :=
  match alookup (p.extra.getD []) "system_prompt" with
  | some (.str s) => if s = "" then none else some s
  | _ => none

/-- `req.Profile.Extra["options"].(map[string]any)`: `JValue` carries the
scalar values the checked claims exercise, so the map-type assertion yields
nil here; no checked claim reads the ollama `options` field. -/
def optionsOf (_ : ProviderProfile) : Option JMap := none

/-- callOpenAI (openai provider file). -/
def callOpenAI (w : World) (envKey : String) (cancelled : Bool)
    (req : PRequest) (profile : ProviderProfile) :
    Except ExecError ProviderResponse :=
  let model := if profile.defaultModel = "" then "gpt-4o-mini" else profile.defaultModel
  let apiKey := if profile.apiKey = "" then envKey else profile.apiKey
  if apiKey = "" then .error (.fail "openai api key is not configured")
  else
    let base := if profile.baseURI = "" then "https://api.openai.com/v1" else profile.baseURI
    let url := trimRightSlash base ++ "/chat/completions"
    let messages :=
      match sysPromptOf req.profile with
      | some sys => [("system", sys), ("user", req.prompt)]
      | none => [("user", req.prompt)]
    match if cancelled then .error .canceled
      else w.openai ⟨url, apiKey, model, messages⟩ with
    | .error e => .error e
    | .ok reply =>
      if 400 ≤ reply.statusCode then .error (.fail "openai api error")
      else
        match reply.decoded with
        | none => .error (.fail "decode error")
        | some choices =>
          match choices with
          | [] => .error (.fail "openai response missing choices")
          | text :: _ =>
            .ok ⟨text, [("provider", .str "openai"), ("model", .str model)],
                 buildChunksFromText text⟩

/-- callOllama (ollama provider file). -/
def callOllama (w : World) (cancelled : Bool) (req : PRequest)
    (profile : ProviderProfile) : Except ExecError ProviderResponse :=
  let model := if profile.defaultModel = "" then "llama3" else profile.defaultModel
  let base := if profile.baseURI = "" then "http://127.0.0.1:11434" else profile.baseURI
  let url := trimRightSlash base ++ "/api/generate"
  let system := (sysPromptOf req.profile).getD ""
  let options := optionsOf req.profile
  match if cancelled then .error .canceled
    else w.ollama ⟨url, model, req.prompt, system, options⟩ with
  | .error e => .error e
  | .ok reply =>
    if 400 ≤ reply.statusCode then .error (.fail "ollama api error")
    else
      match reply.decoded with
      | none => .error (.fail "decode error")
      | some (response, replyModel) =>
        if response = "" then .error (.fail "ollama response is empty")
        else
          let modelName := if replyModel = "" then model else replyModel
          .ok ⟨response, [("provider", .str "ollama"), ("model", .str modelName)],
               buildChunksFromText response⟩

/-- The Call of the resolved provider by factory kind.  Factories exist only
for the four kinds below (`RegisterDefaultProviderFactories`); the final
case is unreachable for registries built by the engine. -/
def providerCall (w : World) (envKey : String) (cancelled : Bool)
    (p : RProvider) (req : PRequest) : Except ExecError ProviderResponse :=
  match p.kind with
  | "openai" => callOpenAI w envKey cancelled req p.profile
  | "ollama" => callOllama w cancelled req p.profile
  | "image" =>
    if cancelled then .error .canceled
    else .ok ⟨"image provider " ++ p.profile.id ++ " generated assets for step "
                ++ req.step.id,
              [("provider", .str p.profile.kind)], []⟩
  | "local_tool" =>
    if cancelled then .error .canceled
    else .ok ⟨"local tool " ++ p.profile.id ++ " executed for step " ++ req.step.id,
              [("tool", .str p.profile.id)], []⟩
  | k => .error (.fail ("no factory registered for kind " ++ k))

/-! ## DAG executor (BasicEngine.executeJob, runStep and helpers)

One supervisor per job; the model threads the engine-side state (provider
registry, logical clock, ID supply, checkpoint map) and the last persisted
snapshot of the job (`UpdateJob` on the in-memory store never fails for an
existing job).  A static `cancelled` flag stands for a context already
cancelled when a check runs; cancellation arriving during provider I/O is
modelled by the world returning the `canceled` error. -/

/-- In-place update of one list element (`xs[i] = …`). -/
def listSet {α : Type} (l : List α) (i : Nat) (f : α → α) : List α :=
  match l, i with
  | [], _ => []
  | x :: xs, 0 => f x :: xs
  | x :: xs, n + 1 => x :: listSet xs n f

/-- PipelineDef (types.go). -/
structure PipelineDef where
  typeName : String
  version : String
  steps : List StepDef
  deriving DecidableEq, Repr

/-- Engine-side mutable state threaded through `executeJob`. -/
structure EngineSt where
  reg : Registry
  nextId : Nat
  now : Nat
  checkpoints : List (String × List (String × List ResultItem))

/-- Template context (`promptContext`, engine.go). -/
structure PromptCtx where
  job : Job
  step : StepDef
  sources : List Source
  options : Option JobOptions
  previous : List (String × List ResultItem)

/-- Fixed collaborators: the external world, the
`PIPELINE_ENGINE_OPENAI_API_KEY` environment value, and the text/template
renderer (`executeTemplateText`: rendering falls back to the raw template
text on parse or execute errors, so it is a total function). -/
structure Env where
  world : World
  envOpenAIKey : String
  render : String → PromptCtx → String

/-- generateID: a fresh unique id from the random supply. -/
def generateID (st : EngineSt) : String × EngineSt :=
  ("id-" ++ toString st.nextId, { st with nextId := st.nextId + 1 })

/-- `time.Now()` on the logical clock. -/
def timeNow (st : EngineSt) : Nat × EngineSt :=
  (st.now, { st with now := st.now + 1 })

/-- cloneResultItems (engine.go); with immutable values the deep copy is the
identity on contents. -/
def cloneResultItems (items : List ResultItem) : List ResultItem :=
  items.map (fun i => i)

/-- Go `unicode.IsSpace` on the characters that occur here. -/
def isSpaceChar (c : Char) : Bool :=
  c = ' ' ∨ c = '\n' ∨ c = '\t' ∨ c = '\r'

/-- Go `strings.TrimSpace`. -/
def goTrimSpace (s : String) : String :=
  ⟨((s.data.dropWhile isSpaceChar).reverse.dropWhile isSpaceChar).reverse⟩

/-- buildPrompt (engine.go). -/
def buildPrompt (env : Env) (step : StepDef) (job : Job)
    (outputs : List (String × List ResultItem)) : String :=
  if step.hasPrompt = false then ""
  else
    let ctx : PromptCtx :=
      ⟨job, step, job.input.sources, job.input.options,
       outputs.map (fun kv => (kv.1, cloneResultItems kv.2))⟩
    let s1 := if step.promptSystem = "" then ""
      else env.render step.promptSystem ctx ++ "\n"
    let s2 := if step.promptUser = "" then "" else env.render step.promptUser ctx
    goTrimSpace (s1 ++ s2)

/-- ensureDependencies (engine.go). -/
def ensureDeps (stepId : String) (deps : List String)
    (outputs : List (String × List ResultItem)) : Except String Unit :=
  match deps with
  | [] => .ok ()
  | dep :: rest =>
    if (alookup outputs dep).isSome then ensureDeps stepId rest outputs
    else .error ("dependency " ++ dep ++ " not satisfied for step " ++ stepId)

/-- resolveProvider (engine.go): any Resolve error is swallowed and replaced
by no provider and a zero-valued profile; the Resolve call's registry
mutation persists. -/
def resolveProvider (reg : Registry) (step : StepDef) :
    Option RProvider × ProviderProfile × Registry :=
  match resolve reg step with
  | (.error _, reg') => (none, ⟨"", "", "", "", "", none⟩, reg')
  | (.ok (p, profile), reg') => (some p, profile, reg')

/-- callProvider (engine.go): a nil provider yields an empty successful
response. -/
def callProviderM (env : Env) (cancelled : Bool) (provider : Option RProvider)
    (profile : ProviderProfile) (step : StepDef) (prompt : String)
    (input : PInput) : Except ExecError ProviderResponse :=
  match provider with
  | none => .ok ⟨"", [], []⟩
  | some p => providerCall env.world env.envOpenAIKey cancelled p
      ⟨step, prompt, profile, input⟩

/-- The chunk-append loop of recordChunks: each appended chunk gets
`index = len(chunks)`. -/
def appendChunks (se : StepExecution) (cs : List ProviderChunk) : StepExecution :=
  cs.foldl (fun se c =>
    { se with chunks := se.chunks ++ [⟨se.stepId, se.chunks.length, c.content⟩] }) se

/-- recordChunks (engine.go): attach the chunks to the step execution,
stamp `updated_at`, persist. -/
def recordChunks (st : EngineSt) (stored job : Job) (execIdx : Nat)
    (chunks : List ProviderChunk) : EngineSt × Job × Job :=
  if chunks.isEmpty ∨ job.stepExecutions.length ≤ execIdx then (st, stored, job)
  else
    let (now, st) := timeNow st
    let job := { job with
      stepExecutions := listSet job.stepExecutions execIdx (fun se => appendChunks se chunks),
      updatedAt := now }
    (st, job, job)

/-- mergeMeta (engine.go). -/
def mergeMeta (dst : JMap) (meta : JMap) : JMap :=
  if meta.isEmpty then dst else meta.foldl (fun d kv => aset d kv.1 kv.2) dst

/-- ensureContentType (engine.go). -/
def ensureContentType (ct : String) : String := if ct = "" then "text" else ct

/-- buildSingleResult (engine.go). -/
def buildSingleResult (st : EngineSt) (step : StepDef) (job : Job)
    (prompt text : String) (meta : JMap) : ResultItem × EngineSt :=
  let label := if step.name = "" then step.id else step.name
  let data := mergeMeta
    [("text", .str text), ("prompt", .str prompt),
     ("pipelineType", .str job.pipelineType)] meta
  let (id, st) := generateID st
  (⟨id, label, step.id, none, false, step.kind, "",
    ensureContentType step.outputType, data⟩, st)

/-- buildFanOutResult (engine.go). -/
def buildFanOutResult (st : EngineSt) (step : StepDef) (prompt : String)
    (src : Source) (idx : Nat) (text : String) (meta : JMap) :
    ResultItem × EngineSt :=
  let label := if step.name = "" then step.id else step.name
  let data := mergeMeta
    [("text", .str text), ("prompt", .str prompt),
     ("source_kind", .str src.kind), ("source", .str src.content)] meta
  let shard := step.id ++ "-" ++ toString idx
  let (id, st) := generateID st
  (⟨id, label ++ "#" ++ toString (idx + 1), step.id, some shard, false,
    step.kind, "", ensureContentType step.outputType, data⟩, st)

/-- buildPerItemResult (engine.go); note the label uses `step.Name` with no
fallback. -/
def buildPerItemResult (st : EngineSt) (step : StepDef) (prompt : String)
    (prev : ResultItem) (idx : Nat) (text : String) (meta : JMap) :
    ResultItem × EngineSt :=
  let shard := match prev.shardKey with
    | some k => k
    | none => step.id ++ "-" ++ toString idx
  let data := mergeMeta
    [("text", .str text), ("prompt", .str prompt),
     ("previous_step", .str prev.stepId)] meta
  let (id, st) := generateID st
  (⟨id, step.name ++ "#" ++ toString (idx + 1), step.id, some shard, false,
    step.kind, "", ensureContentType step.outputType, data⟩, st)

/-- runSingleStep (engine.go). -/
def runSingleStep (env : Env) (cancelled : Bool) (st : EngineSt)
    (stored job : Job) (execIdx : Nat) (provider : Option RProvider)
    (profile : ProviderProfile) (step : StepDef) (prompt : String)
    (input : PInput) :
    Except ExecError (List ResultItem) × EngineSt × Job × Job :=
  match callProviderM env cancelled provider profile step prompt input with
  | .error e => (.error e, st, stored, job)
  | .ok resp =>
    let (st, stored, job) := recordChunks st stored job execIdx resp.chunks
    let text := if resp.output = "" then
        "step " ++ step.id ++ " processed "
          ++ toString job.input.sources.length ++ " sources"
      else resp.output
    let (item, st) := buildSingleResult st step job prompt text resp.metadata
    (.ok [item], st, stored, job)

/-- The per-source loop of runFanOutStep. -/
def fanOutLoop (env : Env) (cancelled : Bool) (st : EngineSt)
    (stored job : Job) (execIdx : Nat) (provider : Option RProvider)
    (profile : ProviderProfile) (step : StepDef) (prompt : String)
    (input : PInput) (srcs : List (Nat × Source)) (acc : List ResultItem) :
    Except ExecError (List ResultItem) × EngineSt × Job × Job :=
  match srcs with
  | [] => (.ok acc, st, stored, job)
  | (i, src) :: rest =>
    let localInput := { input with sources := [src] }
    match callProviderM env cancelled provider profile step prompt localInput with
    | .error e => (.error e, st, stored, job)
    | .ok resp =>
      let (st, stored, job) := recordChunks st stored job execIdx resp.chunks
      let text := if resp.output = "" then
          "step " ++ step.id ++ " handled source " ++ src.label
        else resp.output
      let (item, st) := buildFanOutResult st step prompt src i text resp.metadata
      fanOutLoop env cancelled st stored job execIdx provider profile step prompt
        input rest (acc ++ [item])

/-- runFanOutStep (engine.go): degrade to single when the job input has no
sources. -/
def runFanOutStep (env : Env) (cancelled : Bool) (st : EngineSt)
    (stored job : Job) (execIdx : Nat) (provider : Option RProvider)
    (profile : ProviderProfile) (step : StepDef) (prompt : String)
    (input : PInput) :
    Except ExecError (List ResultItem) × EngineSt × Job × Job :=
  if job.input.sources.length = 0 then
    runSingleStep env cancelled st stored job execIdx provider profile step
      prompt input
  else
    fanOutLoop env cancelled st stored job execIdx provider profile step prompt
      input (job.input.sources.enum) []

/-- The per-item loop of runPerItemStep. -/
def perItemLoop (env : Env) (cancelled : Bool) (st : EngineSt)
    (stored job : Job) (execIdx : Nat) (provider : Option RProvider)
    (profile : ProviderProfile) (step : StepDef) (prompt : String)
    (input : PInput) (base : List (Nat × ResultItem)) (acc : List ResultItem) :
    Except ExecError (List ResultItem) × EngineSt × Job × Job :=
  match base with
  | [] => (.ok acc, st, stored, job)
  | (i, prev) :: rest =>
    let localInput := { input with previous := [(prev.stepId, [prev])] }
    match callProviderM env cancelled provider profile step prompt localInput with
    | .error e => (.error e, st, stored, job)
    | .ok resp =>
      let (st, stored, job) := recordChunks st stored job execIdx resp.chunks
      let text := if resp.output = "" then
          let shard := match prev.shardKey with
            | some k => k
            | none => step.id ++ "-" ++ toString i
          "step " ++ step.id ++ " refined shard " ++ shard
        else resp.output
      let (item, st) := buildPerItemResult st step prompt prev i text resp.metadata
      perItemLoop env cancelled st stored job execIdx provider profile step prompt
        input rest (acc ++ [item])

/-- runPerItemStep (engine.go). -/
def runPerItemStep (env : Env) (cancelled : Bool) (st : EngineSt)
    (stored job : Job) (execIdx : Nat) (provider : Option RProvider)
    (profile : ProviderProfile) (step : StepDef) (prompt : String)
    (input : PInput) (base : List ResultItem) :
    Except ExecError (List ResultItem) × EngineSt × Job × Job :=
  perItemLoop env cancelled st stored job execIdx provider profile step prompt
    input (base.enum) []

/-- The `base` computation of the per_item branch: the outputs of the last
dependency, empty when there is none or it produced nothing. -/
def lastDepBase (step : StepDef)
    (outputs : List (String × List ResultItem)) : List ResultItem :=
  match step.dependsOn.getLast? with
  | none => []
  | some lastDep => (alookup outputs lastDep).getD []

/-- runStep (engine.go): context check, provider resolution, dispatch by
mode (the 100 ms sleep has no observable effect in the model). -/
def runStep (env : Env) (cancelled : Bool) (st : EngineSt) (stored job : Job)
    (execIdx : Nat) (step : StepDef) (prompt : String)
    (outputs : List (String × List ResultItem)) :
    Except ExecError (List ResultItem) × EngineSt × Job × Job :=
  if cancelled then (.error .canceled, st, stored, job)
  else
    let rp := resolveProvider st.reg step
    let st := { st with reg := rp.2.2 }
    let input : PInput := ⟨job.input.sources, job.input.options, outputs⟩
    match step.mode with
    | "fanout" =>
      runFanOutStep env cancelled st stored job execIdx rp.1 rp.2.1 step prompt input
    | "per_item" =>
      if (lastDepBase step outputs).length = 0 then
        runFanOutStep env cancelled st stored job execIdx rp.1 rp.2.1 step prompt input
      else
        runPerItemStep env cancelled st stored job execIdx rp.1 rp.2.1 step prompt
          input (lastDepBase step outputs)
    | _ =>
      runSingleStep env cancelled st stored job execIdx rp.1 rp.2.1 step prompt input

/-- failStep (engine.go): mark the step failed, stamp `finished_at`, write
the error on step and job, mark the job failed, persist. -/
def failStep (st : EngineSt) (job : Job) (idx : Nat) (code message : String) :
    Job × EngineSt :=
  if job.stepExecutions.length ≤ idx then (job, st)
  else
    let (finish, st) := timeNow st
    let err : Option JobError := some ⟨code, message⟩
    let job := { job with
      stepExecutions := listSet job.stepExecutions idx
        (fun se => { se with status := .failed, finishedAt := some finish, error := err }),
      status := JobStatus.failed,
      error := err,
      updatedAt := finish }
    (job, st)

/-- appendExportedResults (engine.go). -/
def appendExportedResults (job : Job) (items : List ResultItem) : Job :=
  if items.isEmpty then job
  else
    let result := job.result.getD ⟨[], []⟩
    { job with result := some { result with
        items := result.items ++ cloneResultItems items } }

/-- appendExportedResultsForStep (engine.go). -/
def appendExportedResultsForStep (job : Job) (step : StepDef)
    (items : List ResultItem) : Job :=
  if step.exportFlag = false ∨ items.isEmpty then job
  else appendExportedResults job items

/-- saveCheckpoint (engine.go / MemoryStore.SaveCheckpoint): no-op on empty
items, otherwise store a deep copy keyed by job and step. -/
def saveCheckpoint (st : EngineSt) (jobID stepId : String)
    (items : List ResultItem) : EngineSt :=
  if items.isEmpty then st
  else
    let stepMap := (alookup st.checkpoints jobID).getD []
    let cps := aset st.checkpoints jobID (aset stepMap stepId (cloneResultItems items))
    { st with checkpoints := cps }

/-- loadCheckpoints (engine.go / MemoryStore.LoadCheckpoints). -/
def loadCheckpoints (st : EngineSt) (jobID : String) :
    List (String × List ResultItem) :=
  match alookup st.checkpoints jobID with
  | none => []
  | some m => m.map (fun kv => (kv.1, cloneResultItems kv.2))

/-- findStepIndex (engine.go). -/
def findStepIndex (steps : List StepDef) (id : String) : Option Nat :=
  steps.findIdx? (fun s => s.id = id)

/-- findStartIndex (engine.go): index of `rerun_from_step`, else 0. -/
def findStartIndex (pipeline : PipelineDef) (from_ : Option String) : Nat :=
  match from_ with
  | none => 0
  | some f =>
    match findStepIndex pipeline.steps f with
    | some idx => idx
    | none => 0

/-- The reuse-upstream block of executeJob (engine.go:255-268): for each
step strictly before the start index with checkpointed items, copy them
into outputs, mark the execution skipped, and append exported items. -/
def reuseSteps (reused : List (String × List ResultItem))
    (steps : List (Nat × StepDef)) (startIndex : Nat) (job : Job)
    (outputs : List (String × List ResultItem)) :
    Job × List (String × List ResultItem) :=
  match steps with
  | [] => (job, outputs)
  | (idx, step) :: rest =>
    if idx < startIndex then
      match alookup reused step.id with
      | some items =>
        let outputs := aset outputs step.id (cloneResultItems items)
        let job := { job with
          stepExecutions := listSet job.stepExecutions idx
            (fun se => { se with status := .skipped }) }
        let job := if step.exportFlag then appendExportedResults job items else job
        reuseSteps reused rest startIndex job outputs
      | none => reuseSteps reused rest startIndex job outputs
    else (job, outputs)

/-- The step loop of executeJob (engine.go:277-322).  Early returns leave
the store at the last persisted snapshot (`stored`). -/
def stepLoop (env : Env) (cancelled : Bool) (st : EngineSt) (stored job : Job)
    (reuse : Bool) (startIndex : Nat) :
    List (Nat × StepDef) → List (String × List ResultItem) → Job × EngineSt
  | [], _ =>
    let (now, st) := timeNow st
    ({ job with status := JobStatus.succeeded, updatedAt := now }, st)
  | (idx, step) :: rest, outputs =>
    if reuse ∧ idx < startIndex then
      stepLoop env cancelled st stored job reuse startIndex rest outputs
    else if cancelled then (stored, st)
    else
      match ensureDeps step.id step.dependsOn outputs with
      | .error msg => failStep st job idx "missing_dependency" msg
      | .ok _ =>
        let (start, st) := timeNow st
        let job := { job with
          stepExecutions := listSet job.stepExecutions idx
            (fun se => { se with status := .running, startedAt := some start }) }
        let stored := job
        let prompt := buildPrompt env step job outputs
        match runStep env cancelled st stored job idx step prompt outputs with
        | (.error e, st, _, job) =>
          let code := if e = .canceled then "cancelled" else "step_failed"
          failStep st job idx code (errMessage e)
        | (.ok items, st, _, job) =>
          let (finish, st) := timeNow st
          let ses := listSet job.stepExecutions idx (fun se =>
            { se with status := .success, finishedAt := some finish, error := none })
          let job := { job with stepExecutions := ses, updatedAt := finish }
          let outputs := aset outputs step.id items
          let st := saveCheckpoint st job.id step.id items
          let job := appendExportedResultsForStep job step items
          stepLoop env cancelled st job job reuse startIndex rest outputs

/-- The default single step injected when the pipeline has no steps
(engine.go:240-244; note it has no name and exports its result). -/
def defaultStepDef : StepDef :=
  { id := "step-1", name := "", kind := "llm", mode := "single", dependsOn := [],
    providerProfileID := "", providerOverride := [], promptSystem := "",
    promptUser := "", hasPrompt := false, outputType := "text", exportFlag := true }

/-- executeJob (engine.go:227-327) given the already-loaded job and the
resolved pipeline definition (the cache/`pipelineForType` lookup).  The
first component of the result is the job as last persisted in the store. -/
def executeJob (env : Env) (cancelled : Bool) (st : EngineSt) (job0 : Job)
    (pipeline0 : PipelineDef) : Job × EngineSt :=
  let pipeline := if pipeline0.steps.isEmpty then
      { pipeline0 with steps := [defaultStepDef] }
    else pipeline0
  let job := if job0.stepExecutions.length ≠ pipeline.steps.length then
      { job0 with stepExecutions :=
          pipeline.steps.map (fun s => ⟨s.id, .pending, none, none, none, []⟩) }
    else job0
  let startIndex := findStartIndex pipeline job.rerunFromStep
  let (job, outputs) :=
    match job.parentJobId with
    | some parentId =>
      if job.reuseUpstream then
        let reused := loadCheckpoints st parentId
        if reused.isEmpty then (job, [])
        else reuseSteps reused pipeline.steps.enum startIndex job []
      else (job, [])
    | none => (job, [])
  let (now, st) := timeNow st
  let job := { job with status := JobStatus.running, updatedAt := now }
  stepLoop env cancelled st job job job.reuseUpstream startIndex
    pipeline.steps.enum outputs

instance {ε α : Type} [DecidableEq ε] [DecidableEq α] : DecidableEq (Except ε α) :=
  fun a b =>
    match a, b with
    | .error x, .error y =>
      if h : x = y then .isTrue (congrArg Except.error h)
      else .isFalse (fun hc => h (Except.error.inj hc))
    | .ok x, .ok y =>
      if h : x = y then .isTrue (congrArg Except.ok h)
      else .isFalse (fun hc => h (Except.ok.inj hc))
    | .error _, .ok _ => .isFalse (fun hc => Except.noConfusion hc)
    | .ok _, .error _ => .isFalse (fun hc => Except.noConfusion hc)

/-- defaultProviderProfiles (provider file). -/
def defaultProviderProfiles : List ProviderProfile :=
  [⟨"default-openai", "openai", "https://api.openai.com/v1", "", "gpt-4o-mini", none⟩,
   ⟨"default-ollama", "ollama", "http://127.0.0.1:11434", "", "llama3", none⟩,
   ⟨"default-image", "image", "http://localhost:9000", "", "", none⟩,
   ⟨"default-local", "local_tool", "local://tool", "", "", none⟩]

/-- The registry as wired by `NewBasicEngineWithConfig`:
`RegisterDefaultProviderFactories` plus the default profiles. -/
def newEngineRegistry : Registry :=
  defaultProviderProfiles.foldl registerProfile
    ⟨[], ["openai", "ollama", "image", "local_tool"]⟩

/-! ### C1 — provider failure classification -/

/-- An openai profile with a configured key, registered for the C1 run. -/
def c1profile : ProviderProfile :=
  ⟨"p-oai", "openai", "https://api.openai.com/v1", "test-key", "gpt-4o-mini", some []⟩

def c1reg : Registry := registerProfile newEngineRegistry c1profile

/-- The C1 world: the job is cancelled while the provider's HTTP call is in
flight, so `client.Do` returns `ctx.Err() = context.Canceled`. -/
def c1world : World :=
  ⟨fun _ => .error .canceled, fun _ => .error (.fail "unused")⟩

def c1env : Env := ⟨c1world, "", fun text _ => text⟩

def c1st : EngineSt := ⟨c1reg, 0, 10, []⟩

def c1step : StepDef :=
  { id := "s1", name := "Call", kind := "llm", mode := "single", dependsOn := [],
    providerProfileID := "p-oai", providerOverride := [], promptSystem := "",
    promptUser := "", hasPrompt := false, outputType := "text", exportFlag := true }

def c1pipeline : PipelineDef := ⟨"p", "v0", [c1step]⟩

def c1job : Job :=
  { id := "job-c1", pipelineType := "p", pipelineVersion := "v0",
    status := .queued, createdAt := 0, updatedAt := 0,
    input := ⟨[], none⟩, result := none, error := none,
    stepExecutions := [⟨"s1", .pending, none, none, none, []⟩],
    parentJobId := none, mode := "async", rerunFromStep := none,
    reuseUpstream := false }

/-- C1 — the executor classifies a cancellation only in the error code: on
a provider call failing with `context.Canceled`, `failStep` marks the step
execution `failed` (not `cancelled`) and the job `failed` (not
`cancelled`), while the persisted error carries code "cancelled";
`finished_at` is stamped.  This contradicts the claimed step/job statuses
`cancelled`. -/
theorem provider_cancellation_marks_failed_c1 :
    (executeJob c1env false c1st c1job c1pipeline).1.status = JobStatus.failed
    ∧ (executeJob c1env false c1st c1job c1pipeline).1.stepExecutions.map
        (fun se => se.status) = [StepExecStatus.failed]
    ∧ (executeJob c1env false c1st c1job c1pipeline).1.error
        = some ⟨"cancelled", "context canceled"⟩
    ∧ (executeJob c1env false c1st c1job c1pipeline).1.stepExecutions.map
        (fun se => se.error) = [some ⟨"cancelled", "context canceled"⟩]
    ∧ (executeJob c1env false c1st c1job c1pipeline).1.stepExecutions.map
        (fun se => se.finishedAt.isSome) = [true] := by
  refine ⟨by decide, by decide, by decide, by decide, by decide⟩

/-! ### C3 — missing provider profile -/

/-- The C3 step: its `provider_profile_id` names a profile absent from the
registry. -/
def c3step : StepDef :=
  { id := "s1", name := "Summarize", kind := "llm", mode := "single",
    dependsOn := [], providerProfileID := "missing-prof", providerOverride := [],
    promptSystem := "", promptUser := "", hasPrompt := false,
    outputType := "text", exportFlag := true }

def c3world : World :=
  ⟨fun _ => .error (.fail "unused"), fun _ => .error (.fail "unused")⟩

def c3env : Env := ⟨c3world, "", fun text _ => text⟩

def c3st : EngineSt := ⟨newEngineRegistry, 0, 0, []⟩

def c3pipeline : PipelineDef := ⟨"p", "v0", [c3step]⟩

def c3job : Job :=
  { id := "job-c3", pipelineType := "p", pipelineVersion := "v0",
    status := .queued, createdAt := 0, updatedAt := 0,
    input := ⟨[⟨"note", "m", "hi", []⟩], none⟩, result := none, error := none,
    stepExecutions := [⟨"s1", .pending, none, none, none, []⟩],
    parentJobId := none, mode := "async", rerunFromStep := none,
    reuseUpstream := false }

/-- C3 counterexample: `Resolve` does report `profile_not_found`, but
`resolveProvider` swallows the error; the step runs with no provider,
succeeds with the deterministic placeholder text, and the job ends
`succeeded` — not `failed`. -/
theorem missing_profile_step_succeeds_c3 :
    (resolve newEngineRegistry c3step).1
        = .error (.profileNotFound "missing-prof")
    ∧ (executeJob c3env false c3st c3job c3pipeline).1.status
        = JobStatus.succeeded
    ∧ (executeJob c3env false c3st c3job c3pipeline).1.stepExecutions.map
        (fun se => se.status) = [StepExecStatus.success]
    ∧ (executeJob c3env false c3st c3job c3pipeline).1.error = none
    ∧ (executeJob c3env false c3st c3job c3pipeline).1.result.map
        (fun r => r.items.map (fun i => alookup i.data "text"))
      = some [some (.str "step s1 processed 1 sources")] := by
  refine ⟨by decide, by decide, by decide, by decide, by decide⟩

/-! ### C8 — step-mode degradation -/

/-- No provider reads `step.Mode`: the per-source loop of the fanout path
treats two steps differing only in their mode identically. -/
theorem fanOutLoop_mode (env : Env) (cancelled : Bool) (st : EngineSt)
    (stored job : Job) (execIdx : Nat) (prov : Option RProvider)
    (profile : ProviderProfile)
    (sid sname skind : String) (m1 m2 : String) (sdeps : List String)
    (spid : String) (sov : JMap) (psys pusr : String) (hasp : Bool)
    (soty : String) (sexp : Bool) (prompt : String) (input : PInput)
    (srcs : List (Nat × Source)) (acc : List ResultItem) :
    fanOutLoop env cancelled st stored job execIdx prov profile
      ⟨sid, sname, skind, m1, sdeps, spid, sov, psys, pusr, hasp, soty, sexp⟩
      prompt input srcs acc
    = fanOutLoop env cancelled st stored job execIdx prov profile
      ⟨sid, sname, skind, m2, sdeps, spid, sov, psys, pusr, hasp, soty, sexp⟩
      prompt input srcs acc := by
  induction srcs generalizing st stored job acc with
  | nil => rfl
  | cons p rest ih =>
    obtain ⟨i, src⟩ := p
    have hcall : callProviderM env cancelled prov profile
        ⟨sid, sname, skind, m1, sdeps, spid, sov, psys, pusr, hasp, soty, sexp⟩
        prompt ({ input with sources := [src] })
      = callProviderM env cancelled prov profile
        ⟨sid, sname, skind, m2, sdeps, spid, sov, psys, pusr, hasp, soty, sexp⟩
        prompt ({ input with sources := [src] }) := rfl
    simp only [fanOutLoop]
    rw [hcall]
    cases hres : callProviderM env cancelled prov profile
        ⟨sid, sname, skind, m2, sdeps, spid, sov, psys, pusr, hasp, soty, sexp⟩
        prompt ({ input with sources := [src] }) with
    | error e => rfl
    | ok resp =>
      dsimp only
      exact ih _ _ _ _

/-- runFanOutStep treats two steps differing only in their mode
identically. -/
theorem runFanOutStep_mode (env : Env) (cancelled : Bool) (st : EngineSt)
    (stored job : Job) (execIdx : Nat) (prov : Option RProvider)
    (profile : ProviderProfile)
    (sid sname skind : String) (m1 m2 : String) (sdeps : List String)
    (spid : String) (sov : JMap) (psys pusr : String) (hasp : Bool)
    (soty : String) (sexp : Bool) (prompt : String) (input : PInput) :
    runFanOutStep env cancelled st stored job execIdx prov profile
      ⟨sid, sname, skind, m1, sdeps, spid, sov, psys, pusr, hasp, soty, sexp⟩
      prompt input
    = runFanOutStep env cancelled st stored job execIdx prov profile
      ⟨sid, sname, skind, m2, sdeps, spid, sov, psys, pusr, hasp, soty, sexp⟩
      prompt input := by
  unfold runFanOutStep
  split
  · rfl
  · exact fanOutLoop_mode env cancelled st stored job execIdx prov profile
      sid sname skind m1 m2 sdeps spid sov psys pusr hasp soty sexp prompt input _ _

/-- C8 — degradation laws of `runStep`: a fanout step over a job input with
no sources executes exactly as the same step in single mode (same result
items, same engine state, same persisted job), and a per_item step whose
last dependency produced no items executes exactly as the same step in
fanout mode. -/
theorem step_mode_degradation_c8 (env : Env) (cancelled : Bool) (st : EngineSt)
    (stored job : Job) (execIdx : Nat) (step : StepDef) (prompt : String)
    (outputs : List (String × List ResultItem)) :
    (step.mode = "fanout" → job.input.sources = [] →
      runStep env cancelled st stored job execIdx step prompt outputs
        = runStep env cancelled st stored job execIdx
            ({ step with mode := "single" }) prompt outputs)
    ∧ (step.mode = "per_item" → lastDepBase step outputs = [] →
      runStep env cancelled st stored job execIdx step prompt outputs
        = runStep env cancelled st stored job execIdx
            ({ step with mode := "fanout" }) prompt outputs) := by
  obtain ⟨sid, sname, skind, smode, sdeps, spid, sov, psys, pusr, hasp, soty, sexp⟩ := step
  obtain ⟨jid, jpt, jpv, jst, jca, jua, jin, jres, jerr, jses, jpar, jmode, jrer, jreu⟩ := job
  obtain ⟨jsrc, jopt⟩ := jin
  constructor
  · intro hmode hsrc
    simp only at hmode hsrc
    subst hmode
    subst hsrc
    rfl
  · intro hmode hbase
    simp only at hmode
    subst hmode
    show runStep env cancelled st stored _ execIdx _ prompt outputs = _
    unfold runStep
    by_cases hc : cancelled
    · simp [hc]
    · simp only [hc, if_false]
      rw [show lastDepBase
          ⟨sid, sname, skind, "per_item", sdeps, spid, sov, psys, pusr, hasp, soty, sexp⟩
          outputs = [] from hbase]
      rw [show resolveProvider st.reg
          ⟨sid, sname, skind, "per_item", sdeps, spid, sov, psys, pusr, hasp, soty, sexp⟩
        = resolveProvider st.reg
          ⟨sid, sname, skind, "fanout", sdeps, spid, sov, psys, pusr, hasp, soty, sexp⟩
        from rfl]
      simp only [List.length_nil, Bool.false_eq_true, if_false, if_true,
        reduceCtorEq, reduceIte]
      exact runFanOutStep_mode env false _ stored _ execIdx _ _
        sid sname skind "per_item" "fanout" sdeps spid sov psys pusr hasp soty sexp
        prompt _

def c8world : World :=
  ⟨fun _ => .error (.fail "unused"), fun _ => .error (.fail "unused")⟩

def c8env : Env := ⟨c8world, "", fun text _ => text⟩

def c8st : EngineSt := ⟨newEngineRegistry, 0, 0, []⟩

/-- A fanout step for the C8 witness (no provider profile: `Resolve` fails
and the engine proceeds with no provider). -/
def c8stepF : StepDef :=
  { id := "s8", name := "Fan", kind := "map", mode := "fanout", dependsOn := [],
    providerProfileID := "", providerOverride := [], promptSystem := "",
    promptUser := "", hasPrompt := false, outputType := "text", exportFlag := true }

/-- A per_item step for the C8 witness, depending on step `a`. -/
def c8stepP : StepDef :=
  { id := "s9", name := "Refine", kind := "reduce", mode := "per_item",
    dependsOn := ["a"], providerProfileID := "", providerOverride := [],
    promptSystem := "", promptUser := "", hasPrompt := false,
    outputType := "text", exportFlag := true }

/-- A job with no input sources (for the fanout degradation). -/
def c8jobEmpty : Job :=
  { id := "job-c8", pipelineType := "p", pipelineVersion := "v0",
    status := .running, createdAt := 0, updatedAt := 0,
    input := ⟨[], none⟩, result := none, error := none,
    stepExecutions := [⟨"s8", .running, some 0, none, none, []⟩],
    parentJobId := none, mode := "async", rerunFromStep := none,
    reuseUpstream := false }

/-- A job with one source (for the per_item degradation with an empty
dependency output). -/
def c8jobSrc : Job :=
  { c8jobEmpty with
    input := ⟨[⟨"note", "m", "hi", []⟩], none⟩,
    stepExecutions := [⟨"s9", .running, some 0, none, none, []⟩] }

/-- C8 witness: both degradation laws applied at concrete inputs — a fanout
step over an empty source list, and a per_item step whose dependency `a`
produced no items. -/
theorem step_mode_degradation_c8_witness :
    runStep c8env false c8st c8jobEmpty c8jobEmpty 0 c8stepF "" []
      = runStep c8env false c8st c8jobEmpty c8jobEmpty 0
          ({ c8stepF with mode := "single" }) "" []
    ∧ runStep c8env false c8st c8jobSrc c8jobSrc 0 c8stepP "" [("a", [])]
      = runStep c8env false c8st c8jobSrc c8jobSrc 0
          ({ c8stepP with mode := "fanout" }) "" [("a", [])] := by
  refine ⟨?_, ?_⟩
  · exact (step_mode_degradation_c8 c8env false c8st c8jobEmpty c8jobEmpty 0
      c8stepF "" []).1 (by decide) (by decide)
  · exact (step_mode_degradation_c8 c8env false c8st c8jobSrc c8jobSrc 0
      c8stepP "" [("a", [])]).2 (by decide) (by decide)

/-! ### C3 amended — general resolve-error swallowing -/

theorem appendExported_status (job : Job) (step : StepDef) (items : List ResultItem) :
    (appendExportedResultsForStep job step items).status = job.status := by
  unfold appendExportedResultsForStep appendExportedResults
  split
  · rfl
  · split <;> rfl

theorem appendExported_stepExecutions (job : Job) (step : StepDef)
    (items : List ResultItem) :
    (appendExportedResultsForStep job step items).stepExecutions
      = job.stepExecutions := by
  unfold appendExportedResultsForStep appendExportedResults
  split
  · rfl
  · split <;> rfl

theorem appendExported_error (job : Job) (step : StepDef) (items : List ResultItem) :
    (appendExportedResultsForStep job step items).error = job.error := by
  unfold appendExportedResultsForStep appendExportedResults
  split
  · rfl
  · split <;> rfl

/-- C3 amended — for every single-mode step with no dependencies whose
`provider_profile_id` names a profile absent from the registry, `Resolve`
does report `profile_not_found`, but `resolveProvider` swallows the error
and returns no provider; the step then *succeeds* (deterministic
placeholder output) and a single-step job built from it ends with status
`succeeded`, not `failed`. -/
theorem resolve_error_swallowed_c3 (env : Env) (st : EngineSt) (t v : String)
    (step : StepDef) (job : Job)
    (hpid : step.providerProfileID ≠ "")
    (hmiss : alookup st.reg.profiles step.providerProfileID = none)
    (hmode : step.mode = "single")
    (hdeps : step.dependsOn = [])
    (hses : job.stepExecutions = [⟨step.id, .pending, none, none, none, []⟩])
    (hpar : job.parentJobId = none)
    (hrer : job.rerunFromStep = none)
    (herr : job.error = none) :
    (resolve st.reg step).1 = .error (.profileNotFound step.providerProfileID)
    ∧ (executeJob env false st job ⟨t, v, [step]⟩).1.status = JobStatus.succeeded
    ∧ (executeJob env false st job ⟨t, v, [step]⟩).1.stepExecutions.map
        (fun se => se.status) = [StepExecStatus.success]
    ∧ (executeJob env false st job ⟨t, v, [step]⟩).1.error = none := by
  have hres : resolve st.reg step = (.error (.profileNotFound step.providerProfileID), st.reg) := by
    simp [resolve, hpid, hmiss]
  have hrp : resolveProvider st.reg step = (none, ⟨"", "", "", "", "", none⟩, st.reg) := by
    simp [resolveProvider, hres]
  refine ⟨by rw [hres], ?_, ?_, ?_⟩ <;>
  · obtain ⟨sid, sname, skind, smode, sdeps, spid, sov, psys, pusr, hasp, soty, sexp⟩ := step
    obtain ⟨jid, jpt, jpv, jst, jca, jua, jin, jres, jerr, jses, jpar, jmode, jrer, jreu⟩ := job
    simp only at hmode hdeps hses hpar hrer herr
    subst hmode hdeps hses hpar hrer herr
    simp [executeJob, List.enum, List.enumFrom, findStartIndex, stepLoop,
      ensureDeps, runStep, hrp, runSingleStep, callProviderM, recordChunks,
      buildSingleResult, generateID, timeNow, saveCheckpoint, listSet,
      appendExported_status, appendExported_stepExecutions, appendExported_error]

/-- C3 amended witness: the swallowing theorem applied at the concrete
missing-profile job. -/
theorem resolve_error_swallowed_c3_witness :
    (resolve c3st.reg c3step).1 = .error (.profileNotFound "missing-prof")
    ∧ (executeJob c3env false c3st c3job ⟨"p", "v0", [c3step]⟩).1.status
        = JobStatus.succeeded := by
  have h := resolve_error_swallowed_c3 c3env c3st "p" "v0" c3step c3job
    (by decide) (by decide) (by decide) (by decide) (by decide) (by decide)
    (by decide) (by decide)
  exact ⟨h.1, h.2.1⟩

end PipelineEngine
